import Mathlib

/-!
# dots: status resolution and symlink management

A shallow embedding of `internal/dotfile/dotfile.go` (`LinkStatus`, `ContentStatus`,
`sameContent`, `fileHash`, `EnsureSymlink`, `copyFile`, `CopyIntoDots`), of `removeSymlink`
and `restoreFile` of `cmd/remove.go`, and of `FindEntry` and `UpsertEntry` of
`internal/config/config.go`, over an explicit filesystem state.

## How the operating system is represented

* A path is the list of components of a cleaned absolute path: `/home/u/.bashrc` is
  `["home", "u", ".bashrc"]` and `/` is `[]`.  Go strings that are cleaned absolute paths
  correspond one to one to such lists, so Go's `==` on them is equality of lists.
* A filesystem state is a lookup function from paths to nodes.  The root is always a
  directory.  A node is reached only through directories: a lookup fails with `ENOENT`
  when a component is absent and with `ENOTDIR` when a component before the last one is
  not a directory.
* Symbolic links store their raw value verbatim.  They are followed at the last component
  by `Stat` and `Open` (at most 40 times, then `ELOOP`); a symbolic link in the middle of a
  path is not followed and counts as a non-directory.
* Regular files carry their bytes and their permission bits; opening one for reading needs
  the owner read bit.  Directories carry no permission bits: the mode passed to
  `os.MkdirAll` is not recorded and directory access is never denied.
* An open file is known by the path under which its node is stored (there are no hard
  links): reading through a handle gives what is stored there at the time of the read, and
  writing through it replaces what is stored there.  Opening an existing regular file for
  writing needs the owner write bit, and a file that is created gets the requested mode
  less the process umask, which the copying functions take as a parameter.
* A system error is kept as its error number; the operation and path of Go's `*PathError`
  are dropped.
* A Go `error` keeps its chain of wrapped causes, so that `errors.Is(err, fs.ErrNotExist)`
  can be answered.
-/

namespace Dots

/-! ## Paths -/

/-- Components of a cleaned absolute path; the root is the empty list. -/
abbrev Path := List String

/-- The path as the string Go prints with `%s`. -/
def render (p : Path) : String := "/" ++ "/".intercalate p

/-- Go `filepath.Dir` on a cleaned absolute path: drop the last component (the root is its own parent). -/
def Dir (p : Path) : Path := p.dropLast

/-! ## Filesystem state -/

/-- One filesystem object. `other` stands for sockets, devices and the like. -/
inductive Node where
  | file (content : List Nat) (perm : Nat)
  | dir
  | symlink (raw : Path)
  | other
  deriving DecidableEq, Repr

/-- Go `FileInfo.IsDir`. -/
def Node.IsDir : Node → Bool
  | .dir => true
  | _ => false

/-- Go `info.Mode()&os.ModeSymlink != 0`. -/
def Node.IsSymlink : Node → Bool
  | .symlink _ => true
  | _ => false

/-- A filesystem state: what is stored under each path. -/
abbrev FS := Path → Option Node

/-- The state with `n` stored at `p`. -/
def FS.insert (fs : FS) (p : Path) (n : Node) : FS := fun q => if q = p then some n else fs q

/-- The state with nothing stored at `p`. -/
def FS.erase (fs : FS) (p : Path) : FS := fun q => if q = p then none else fs q

/-- Kernel error numbers that the modelled calls can produce; `ENODEVICE` is the "no such
device or address" error that `open(2)` gives for a socket. -/
inductive Errno where
  | ENOENT | ENOTDIR | EEXIST | EISDIR | EINVAL | ELOOP | EACCES | ENOTEMPTY | ENODEVICE
  deriving DecidableEq, Repr

/-- Path lookup without following a final symbolic link, on the reversed component list:
the parent must resolve to a directory, then the last component is looked up in it. -/
def lstatRev (fs : FS) : List String → Except Errno Node
  | [] => .ok .dir
  | c :: rd =>
    match lstatRev fs rd with
    | .error e => .error e
    | .ok .dir =>
      match fs (c :: rd).reverse with
      | some n => .ok n
      | none => .error .ENOENT
    | .ok _ => .error .ENOTDIR

/-- Go `os.Lstat`: the node at `p`, a final symbolic link is not followed. -/
def Lstat (fs : FS) (p : Path) : Except Errno Node := lstatRev fs p.reverse

/-- Lookup that follows a final symbolic link at most `n` more times. -/
def follow (fs : FS) : Nat → Path → Except Errno Node
  | 0, p =>
    match Lstat fs p with
    | .ok (.symlink _) => .error .ELOOP
    | r => r
  | n + 1, p =>
    match Lstat fs p with
    | .ok (.symlink raw) => follow fs n raw
    | r => r

/-- Go `os.Stat`: like `Lstat` but a final symbolic link is followed. -/
def Stat (fs : FS) (p : Path) : Except Errno Node := follow fs 40 p

/-- Go `os.Readlink`: the raw value of the symbolic link at `p`. -/
def Readlink (fs : FS) (p : Path) : Except Errno Path :=
  match Lstat fs p with
  | .ok (.symlink raw) => .ok raw
  | .ok _ => .error .EINVAL
  | .error e => .error e

/-- Go `os.Open` (read only): follows symbolic links; a regular file needs the owner read
bit (0o400); a socket-like node cannot be opened; a directory can. -/
def Open (fs : FS) (p : Path) : Except Errno Node :=
  match Stat fs p with
  | .error e => .error e
  | .ok (.file c perm) => if perm / 256 % 2 = 1 then .ok (.file c perm) else .error .EACCES
  | .ok .other => .error .ENODEVICE
  | .ok n => .ok n

/-- Reading an opened node to the end (`io.Copy` from it): only a regular file yields bytes. -/
def readAll : Node → Except Errno (List Nat)
  | .file c _ => .ok c
  | .dir => .error .EISDIR
  | _ => .error .EINVAL

/-! ## Go errors -/

/-- A Go `error` value: a system error, a wrapping `fmt.Errorf("msg: %w", inner)`, or a
plain `fmt.Errorf` message. -/
inductive GoError where
  | sys (e : Errno)
  | wrap (msg : String) (inner : GoError)
  | new (msg : String)
  deriving DecidableEq, Repr

/-- Go `errors.Is(err, fs.ErrNotExist)`. -/
def GoError.isNotExist : GoError → Bool
  | .sys e => decide (e = .ENOENT)
  | .wrap _ inner => inner.isNotExist
  | .new _ => false

/-! ## Data model (`config.FileEntry`, `dotfile.StatusEntry`) -/

/-- Go `config.FileEntry`. -/
structure FileEntry where
  Source : Path
  Target : Path
  deriving DecidableEq, Repr

/-- Go `dotfile.SyncStatus` with its four constants. -/
inductive SyncStatus where
  | StatusMissing | StatusLinked | StatusDiverged | StatusConflicts
  deriving DecidableEq, Repr

/-- Go `dotfile.StatusEntry`; an absent `Info` is the empty string. -/
structure StatusEntry where
  Entry : FileEntry
  Status : SyncStatus
  Info : String
  deriving DecidableEq, Repr

/-! ## Status resolution -/

/-- Go `dotfile.LinkStatus`. -/
def LinkStatus (fs : FS) (entry : FileEntry) : Except GoError StatusEntry :=
  match Lstat fs entry.Target with
  | .error err =>
    if (GoError.sys err).isNotExist then .ok ⟨entry, .StatusMissing, ""⟩
    else .error (.wrap "stat target" (.sys err))
  | .ok info =>
    if info.IsSymlink = false then .ok ⟨entry, .StatusConflicts, "not a symlink"⟩
    else
      match Readlink fs entry.Target with
      | .error err => .error (.wrap "read symlink" (.sys err))
      | .ok linkPath =>
        if linkPath = entry.Source then .ok ⟨entry, .StatusLinked, ""⟩
        else .ok ⟨entry, .StatusConflicts, "links to " ++ render linkPath⟩

/-- Go `dotfile.fileHash`; `H` is the hex SHA-256 digest of a byte sequence. -/
def fileHash (H : List Nat → String) (fs : FS) (path : Path) : Except GoError String :=
  match Open fs path with
  | .error err => .error (.wrap "open file" (.sys err))
  | .ok file =>
    match readAll file with
    | .error err => .error (.wrap "hash file" (.sys err))
    | .ok bytes => .ok (H bytes)

/-- Go `dotfile.sameContent`. -/
def sameContent (H : List Nat → String) (fs : FS) (source target : Path) : Except GoError Bool :=
  match fileHash H fs source with
  | .error err => .error err
  | .ok sourceHash =>
    match fileHash H fs target with
    | .error err => if err.isNotExist then .ok false else .error err
    | .ok targetHash => .ok (decide (sourceHash = targetHash))

/-- The tail of `ContentStatus` (the byte comparison, lines 180-187). -/
def compareContent (H : List Nat → String) (fs : FS) (entry : FileEntry) :
    Except GoError StatusEntry :=
  match sameContent H fs entry.Source entry.Target with
  | .error err => .error err
  | .ok true => .ok ⟨entry, .StatusMissing, "target missing"⟩
  | .ok false => .ok ⟨entry, .StatusDiverged, ""⟩

/-- Go `dotfile.ContentStatus`. -/
def ContentStatus (H : List Nat → String) (fs : FS) (entry : FileEntry) :
    Except GoError StatusEntry :=
  match LinkStatus fs entry with
  | .error err => .error err
  | .ok status =>
    if status.Status = .StatusLinked then .ok status
    else if status.Status = .StatusMissing ∨ status.Status = .StatusConflicts then
      match Stat fs entry.Source with
      | .error err =>
        if (GoError.sys err).isNotExist then
          .ok ⟨status.Entry, .StatusMissing, "stored file missing"⟩
        else .error (.wrap "stat stored file" (.sys err))
      | .ok _ =>
        if status.Status = .StatusConflicts then .ok status
        else compareContent H fs entry
    else compareContent H fs entry

/-! ## Mutating calls -/

/-- Creating a new name (the common part of `mkdir(2)` and `symlink(2)`): the root exists
already, the parent must resolve to a directory and the name must be free. -/
def create (fs : FS) (p : Path) (n : Node) : Except Errno FS :=
  if p = [] then .error .EEXIST
  else
    match Lstat fs (Dir p) with
    | .error e => .error e
    | .ok .dir =>
      match fs p with
      | some _ => .error .EEXIST
      | none => .ok (fs.insert p n)
    | .ok _ => .error .ENOTDIR

/-- Go `os.Mkdir`. -/
def Mkdir (fs : FS) (p : Path) : Except Errno FS := create fs p .dir

/-- Go `os.Symlink(oldname, newname)`: `oldname` is stored verbatim and not inspected. -/
def Symlink (fs : FS) (oldname newname : Path) : Except Errno FS :=
  create fs newname (.symlink oldname)

/-- Go `os.Remove`: unlinks whatever non-directory is at `p`. Removing a directory needs it
to be empty, which a lookup function cannot tell, so the call is refused for directories;
the functions embedded here never remove one (they test `IsDir` first). -/
def Remove (fs : FS) (p : Path) : Except Errno FS :=
  match Lstat fs p with
  | .error e => .error e
  | .ok .dir => .error .ENOTEMPTY
  | .ok _ => .ok (fs.erase p)

/-- Go `os.MkdirAll` on the reversed component list: if the path exists it must be a
directory; otherwise the parent is ensured first and the directory is made. The state is
returned also on failure, since parents may have been made before the failing step. -/
def mkdirAllRev (fs : FS) : List String → Option Errno × FS
  | [] => (none, fs)
  | c :: rd =>
    match Stat fs (c :: rd).reverse with
    | .ok info => if info.IsDir then (none, fs) else (some .ENOTDIR, fs)
    | .error _ =>
      match mkdirAllRev fs rd with
      | (some err, fs1) => (some err, fs1)
      | (none, fs1) =>
        match Mkdir fs1 (c :: rd).reverse with
        | .ok fs2 => (none, fs2)
        | .error err =>
          match Lstat fs1 (c :: rd).reverse with
          | .ok .dir => (none, fs1)
          | _ => (some err, fs1)

/-- Go `os.MkdirAll(path, 0o755)`. -/
def MkdirAll (fs : FS) (path : Path) : Option Errno × FS := mkdirAllRev fs path.reverse

/-- The last step of `EnsureSymlink` (lines 126-129). -/
def createLink (fs : FS) (target source : Path) : Option GoError × FS :=
  match Symlink fs source target with
  | .error err => (some (.wrap "create symlink" (.sys err)), fs)
  | .ok fs1 => (none, fs1)

/-- Go `dotfile.EnsureSymlink`: the returned pair is the error (`none` for `nil`) and the
filesystem state the call leaves behind. -/
def EnsureSymlink (fs : FS) (target source : Path) : Option GoError × FS :=
  match MkdirAll fs (Dir target) with
  | (some err, fs1) => (some (.wrap "ensure parent dir" (.sys err)), fs1)
  | (none, fs1) =>
    match Lstat fs1 target with
    | .ok info =>
      if info.IsDir then
        (some (.new ("target " ++ render target ++ " is a directory")), fs1)
      else
        match Remove fs1 target with
        | .error err => (some (.wrap "remove existing target" (.sys err)), fs1)
        | .ok fs2 => createLink fs2 target source
    | .error err =>
      if (GoError.sys err).isNotExist = false then
        (some (.wrap "stat target" (.sys err)), fs1)
      else createLink fs1 target source

/-! ## Copying files (`copyFile`, `CopyIntoDots`) -/

/-- Go `info.Mode().Perm()`: the permission bits (mode and 0o777) of a regular file. A node
opened for reading and not a regular file is a directory; it is given 0o755, the mode this
program passes to `os.MkdirAll`. -/
def Node.Perm : Node → Nat
  | .file _ perm => perm % 512
  | _ => 493

/-- The mode a newly created file gets: the requested bits without those in the process
umask. -/
def createMode (umask perm : Nat) : Nat := perm % 512 &&& (511 - umask % 512)

/-- Go `os.Open` keeping the place of the opened file: symbolic links are followed (at most
`k` more times) and the path under which the node is stored is returned with the node, so
that later reads through the handle see what is stored there at that time. -/
def openHandle (fs : FS) : Nat → Path → Except Errno (Path × Node)
  | k, p =>
    match Lstat fs p with
    | .error e => .error e
    | .ok (.symlink raw) =>
      match k with
      | 0 => .error .ELOOP
      | k + 1 => openHandle fs k raw
    | .ok (.file c perm) =>
      if perm / 256 % 2 = 1 then .ok (p, .file c perm) else .error .EACCES
    | .ok .other => .error .ENODEVICE
    | .ok .dir => .ok (p, .dir)

/-- Go `os.OpenFile(name, O_CREATE|O_WRONLY|O_TRUNC, perm)`: symbolic links are followed
(at most `k` more times); an existing regular file needs the owner write bit (0o200), is
emptied and keeps its mode; an absent name is created empty with `perm` less the umask.
The result is the place of the opened file and the state after the call. -/
def openFileTrunc (umask : Nat) (fs : FS) (perm : Nat) : Nat → Path → Except Errno (Path × FS)
  | k, p =>
    match Lstat fs p with
    | .ok (.symlink raw) =>
      match k with
      | 0 => .error .ELOOP
      | k + 1 => openFileTrunc umask fs perm k raw
    | .ok (.file _ mode) =>
      if mode / 128 % 2 = 1 then .ok (p, fs.insert p (.file [] mode)) else .error .EACCES
    | .ok .dir => .error .EISDIR
    | .ok .other => .error .ENODEVICE
    | .error e =>
      if e = .ENOENT then
        match create fs p (.file [] (createMode umask perm)) with
        | .ok fs1 => .ok (p, fs1)
        | .error e1 => .error e1
      else .error e

/-- Reading to the end through a handle (`io.Copy` from it): the bytes stored at the place
of the handle now. -/
def readHandle (fs : FS) (place : Path) : Except Errno (List Nat) :=
  match fs place with
  | some (.file c _) => .ok c
  | some .dir => .error .EISDIR
  | some _ => .error .EINVAL
  | none => if place = [] then .error .EISDIR else .error .EINVAL

/-- Writing bytes through a handle that was just opened with truncation: they become the
content of the file at the place of the handle. -/
def writeHandle (fs : FS) (place : Path) (bytes : List Nat) : FS :=
  match fs place with
  | some (.file _ mode) => fs.insert place (.file bytes mode)
  | _ => fs

/-- Go `dotfile.copyFile`. `in.Stat()` and `out.Sync()` act on open handles and do not fail
here; closing the handles changes nothing. -/
def copyFile (umask : Nat) (fs : FS) (src dst : Path) : Option GoError × FS :=
  match openHandle fs 40 src with
  | .error err => (some (.wrap "open source" (.sys err)), fs)
  | .ok (inPlace, info) =>
    match openFileTrunc umask fs info.Perm 40 dst with
    | .error err => (some (.wrap "create destination" (.sys err)), fs)
    | .ok (outPlace, fs1) =>
      match readHandle fs1 inPlace with
      | .error err => (some (.wrap "copy data" (.sys err)), fs1)
      | .ok bytes => (none, writeHandle fs1 outPlace bytes)

/-- Go `dotfile.CopyFile`. -/
def CopyFile (umask : Nat) (fs : FS) (src dst : Path) : Option GoError × FS :=
  copyFile umask fs src dst


/-- Go `config.DotsDir`: `filepath.Join(home, ".dots")`. -/
def DotsDir (home : Path) : Path := home ++ [".dots"]

/-- Go `filepath.Base` on a cleaned absolute path: the last component, and "/" for the root. -/
def Base (p : Path) : String := p.getLast?.getD "/"

/-- Go `filepath.Join(dir, elem)` for a cleaned absolute `dir` and an `elem` that is one
component or "/" (what `Base` returns): joining "/" adds nothing. -/
def Join (dir : Path) (elem : String) : Path := if elem = "/" then dir else dir ++ [elem]

/-- Go `dotfile.CopyIntoDots`. An error result stands for Go's `("", err)`: every error
return of the function has the empty string as its path. -/
def CopyIntoDots (umask : Nat) (fs : FS) (home sourcePath : Path) :
    Except GoError Path × FS :=
  match Lstat fs sourcePath with
  | .error err => (.error (.wrap "inspect source" (.sys err)), fs)
  | .ok info =>
    if info.IsDir then (.error (.new "source must be a file, got directory"), fs)
    else if info.IsSymlink then (.error (.new "source must be a regular file, got symlink"), fs)
    else
      match CopyFile umask fs sourcePath (Join (DotsDir home) (Base sourcePath)) with
      | (some err, fs1) => (.error err, fs1)
      | (none, fs1) => (.ok (Join (DotsDir home) (Base sourcePath)), fs1)

/-! ## Removal (`cmd/remove.go`) -/

/-- Go `cmd.removeSymlink`. -/
def removeSymlink (fs : FS) (target : Path) : Option GoError × FS :=
  match Lstat fs target with
  | .error err =>
    if (GoError.sys err).isNotExist then (none, fs)
    else (some (.wrap "stat target" (.sys err)), fs)
  | .ok info =>
    if info.IsDir then
      (some (.new ("target " ++ render target ++ " is a directory")), fs)
    else if info.IsSymlink = false then
      (some (.new ("target " ++ render target ++ " is not a symlink")), fs)
    else
      match Remove fs target with
      | .error err => (some (.wrap "remove symlink" (.sys err)), fs)
      | .ok fs1 => (none, fs1)

/-- Go `cmd.restoreFile`. -/
def restoreFile (umask : Nat) (fs : FS) (entry : FileEntry) : Option GoError × FS :=
  match MkdirAll fs (Dir entry.Target) with
  | (some err, fs1) => (some (.wrap "ensure target dir" (.sys err)), fs1)
  | (none, fs1) => CopyFile umask fs1 entry.Source entry.Target

/-- The two filesystem steps of `removeCmd` (lines 42-47 of `cmd/remove.go`), for an entry
already found in the manifest: `removeSymlink`, and `restoreFile` only if it returned no
error. -/
def removeCmdSteps (umask : Nat) (fs : FS) (entry : FileEntry) : Option GoError × FS :=
  match removeSymlink fs entry.Target with
  | (some err, fs1) => (some err, fs1)
  | (none, fs1) => restoreFile umask fs1 entry

/-! ## The manifest (`internal/config/config.go`) -/

/-- Go `config.Manifest`. -/
structure Manifest where
  Files : List FileEntry
  deriving DecidableEq, Repr

/-- The loop of `FindEntry` over the entries. -/
def findIn (target : Path) : List FileEntry → Option FileEntry
  | [] => none
  | entry :: rest => if entry.Target = target then some entry else findIn target rest

/-- Go `config.FindEntry`: `some e` stands for `(e, true)` and `none` for
`(FileEntry{}, false)`. -/
def FindEntry (manifest : Manifest) (target : Path) : Option FileEntry :=
  findIn target manifest.Files

/-- The loop of `UpsertEntry`: the first entry with the same `Target` is replaced in place,
and without one the entry is appended. -/
def upsertIn (entry : FileEntry) : List FileEntry → List FileEntry
  | [] => [entry]
  | existing :: rest =>
    if existing.Target = entry.Target then entry :: rest
    else existing :: upsertIn entry rest

/-- Go `config.UpsertEntry`; the manifest updated in place is returned. -/
def UpsertEntry (manifest : Manifest) (entry : FileEntry) : Manifest :=
  ⟨upsertIn entry manifest.Files⟩

/-! ## Concrete states used to evaluate the functions -/

/-- Decidable equality of results, so that closed facts can be settled by evaluation. -/
instance instDecidableEqExcept {ε α : Type} [DecidableEq ε] [DecidableEq α] :
    DecidableEq (Except ε α)
  | .ok a, .ok b =>
    if h : a = b then isTrue (by rw [h]) else isFalse (fun h' => h (Except.ok.inj h'))
  | .error a, .error b =>
    if h : a = b then isTrue (by rw [h]) else isFalse (fun h' => h (Except.error.inj h'))
  | .ok _, .error _ => isFalse (fun h => Except.noConfusion h)
  | .error _, .ok _ => isFalse (fun h => Except.noConfusion h)

/-- A stand-in for the hex digest on concrete inputs (one character per byte). -/
def sampleDigest (bytes : List Nat) : String := String.mk (bytes.map Char.ofNat)

/-- The entry of the specification's scenarios: stored copy `/store/.bashrc`, live target
`/home/.bashrc`. -/
def bashrcEntry : FileEntry := ⟨["store", ".bashrc"], ["home", ".bashrc"]⟩

/-- Only the directories `/home` and `/store` exist; both are empty. -/
def fsBothAbsent : FS := fun p =>
  if p = ["home"] then some .dir
  else if p = ["store"] then some .dir
  else none

/-- The stored copy exists (mode 0o644), nothing is at the live target. -/
def fsTargetAbsent : FS := fsBothAbsent.insert ["store", ".bashrc"] (.file [101, 120] 420)

/-- The live target links to the stored path, but the stored copy is gone. -/
def fsDangling : FS := fsBothAbsent.insert ["home", ".bashrc"] (.symlink ["store", ".bashrc"])

/-- The live target is a plain file with the bytes of the stored copy. -/
def fsShadow : FS := fsTargetAbsent.insert ["home", ".bashrc"] (.file [101, 120] 420)

/-- The live target links to `/other`, a file with the bytes of the stored copy. -/
def fsWrongLink : FS :=
  (fsTargetAbsent.insert ["other"] (.file [101, 120] 420)).insert ["home", ".bashrc"]
    (.symlink ["other"])

/-- The live target links to `/other` and there is no stored copy. -/
def fsWrongLinkNoStore : FS := fsBothAbsent.insert ["home", ".bashrc"] (.symlink ["other"])

/-- A home directory `/home` with an initialised managed directory `/home/.dots`: the
regular files `/home/.bashrc` (0o644), `/home/run.sh` (0o755), `/home/old.sh` (0o600),
the stored file `/home/.dots/.vimrc`, further files named `.vimrc` under `/home/backup`
and `/home/work`, and the symbolic link `/home/link`. -/
def fsImport : FS := fun p =>
  if p = ["home"] then some .dir
  else if p = ["home", ".dots"] then some .dir
  else if p = ["home", ".bashrc"] then some (.file [101, 120] 420)
  else if p = ["home", ".dots", ".vimrc"] then some (.file [115, 101, 116] 420)
  else if p = ["home", "backup"] then some .dir
  else if p = ["home", "backup", ".vimrc"] then some (.file [48] 420)
  else if p = ["home", "work"] then some .dir
  else if p = ["home", "work", ".vimrc"] then some (.file [49, 50] 420)
  else if p = ["home", "run.sh"] then some (.file [35, 33] 493)
  else if p = ["home", "old.sh"] then some (.file [7] 384)
  else if p = ["home", "link"] then some (.symlink ["home", ".bashrc"])
  else none

/-- A manifest with two tracked files. -/
def sampleManifest : Manifest :=
  ⟨[⟨["dots", ".bashrc"], ["home", "user", ".bashrc"]⟩,
    ⟨["dots", ".vimrc"], ["home", "user", ".vimrc"]⟩]⟩

/-! ## Lemmas about `LinkStatus` -/

theorem linkStatus_absent (fs : FS) (e : FileEntry) (h : Lstat fs e.Target = .error .ENOENT) :
    LinkStatus fs e = .ok ⟨e, .StatusMissing, ""⟩ := by
  simp [LinkStatus, h, GoError.isNotExist]

theorem linkStatus_failed (fs : FS) (e : FileEntry) (err : Errno)
    (h : Lstat fs e.Target = .error err) (hne : err ≠ .ENOENT) :
    LinkStatus fs e = .error (.wrap "stat target" (.sys err)) := by
  simp [LinkStatus, h, GoError.isNotExist, hne]

theorem linkStatus_nonlink (fs : FS) (e : FileEntry) (n : Node)
    (h : Lstat fs e.Target = .ok n) (hn : n.IsSymlink = false) :
    LinkStatus fs e = .ok ⟨e, .StatusConflicts, "not a symlink"⟩ := by
  simp [LinkStatus, h, hn]

theorem linkStatus_link (fs : FS) (e : FileEntry) (raw : Path)
    (h : Lstat fs e.Target = .ok (.symlink raw)) :
    LinkStatus fs e =
      if raw = e.Source then .ok ⟨e, .StatusLinked, ""⟩
      else .ok ⟨e, .StatusConflicts, "links to " ++ render raw⟩ := by
  simp [LinkStatus, h, Readlink, Node.IsSymlink]

theorem links_to_ne (s : String) : "links to " ++ s ≠ "not a symlink" := by
  intro h
  have := congrArg String.data h
  simp at this

theorem linkStatus_entry (fs : FS) (e : FileEntry) (st : StatusEntry)
    (h : LinkStatus fs e = .ok st) : st.Entry = e := by
  unfold LinkStatus at h
  split at h
  · split at h
    · cases h; rfl
    · cases h
  · split at h
    · cases h; rfl
    · split at h
      · cases h
      · split at h <;> (cases h; rfl)

/-! ## Lemmas about `ContentStatus` -/

theorem stat_of_lstat_error (fs : FS) (p : Path) (e : Errno) (h : Lstat fs p = .error e) :
    Stat fs p = .error e := by
  simp [Stat, follow, h]

theorem contentStatus_of_linked (H : List Nat → String) (fs : FS) (entry : FileEntry)
    (h : Lstat fs entry.Target = .ok (.symlink entry.Source)) :
    ContentStatus H fs entry = .ok ⟨entry, .StatusLinked, ""⟩ := by
  have hl := linkStatus_link fs entry entry.Source h
  simp at hl
  simp [ContentStatus, hl]

theorem contentStatus_stored_missing (H : List Nat → String) (fs : FS) (entry : FileEntry)
    (status : StatusEntry) (hlink : LinkStatus fs entry = .ok status)
    (hst : status.Status = .StatusMissing ∨ status.Status = .StatusConflicts)
    (hsrc : Stat fs entry.Source = .error .ENOENT) :
    ContentStatus H fs entry = .ok ⟨entry, .StatusMissing, "stored file missing"⟩ := by
  have hent := linkStatus_entry fs entry status hlink
  have hnl : status.Status ≠ .StatusLinked := by
    rcases hst with h | h <;> simp [h]
  simp [ContentStatus, hlink, hnl, hst, hsrc, GoError.isNotExist, hent]

theorem contentStatus_conflict_kept (H : List Nat → String) (fs : FS) (entry : FileEntry)
    (status : StatusEntry) (n : Node) (hlink : LinkStatus fs entry = .ok status)
    (hst : status.Status = .StatusConflicts) (hsrc : Stat fs entry.Source = .ok n) :
    ContentStatus H fs entry = .ok status := by
  simp [ContentStatus, hlink, hst, hsrc]

/-- With nothing at the target and a stored copy that can be hashed, the byte comparison is
reached, the target cannot be opened, and the verdict is `StatusDiverged`. -/
theorem contentStatus_target_absent (H : List Nat → String) (fs : FS) (entry : FileEntry)
    (n : Node) (digest : String)
    (htgt : Lstat fs entry.Target = .error .ENOENT) (hsrc : Stat fs entry.Source = .ok n)
    (hhash : fileHash H fs entry.Source = .ok digest) :
    ContentStatus H fs entry = .ok ⟨entry, .StatusDiverged, ""⟩ := by
  have hl := linkStatus_absent fs entry htgt
  have ho : Open fs entry.Target = .error .ENOENT := by
    simp [Open, stat_of_lstat_error fs _ _ htgt]
  have hh : fileHash H fs entry.Target = .error (.wrap "open file" (.sys .ENOENT)) := by
    simp [fileHash, ho]
  simp [ContentStatus, hl, hsrc, compareContent, sameContent, hhash, hh, GoError.isNotExist]

/-! ## Lemmas about path lookup and the mutating calls -/

theorem path_cases (p : Path) : p = [] ∨ ∃ d c, p = d ++ [c] := by
  rcases List.eq_nil_or_concat p with h | ⟨d, c, h⟩
  · exact Or.inl h
  · exact Or.inr ⟨d, c, by simpa using h⟩

theorem Dir_snoc (d : Path) (c : String) : Dir (d ++ [c]) = d := by
  simp [Dir]

theorem Lstat_snoc (fs : FS) (d : Path) (c : String) :
    Lstat fs (d ++ [c]) =
      match Lstat fs d with
      | .error e => .error e
      | .ok .dir =>
        match fs (d ++ [c]) with
        | some n => .ok n
        | none => .error .ENOENT
      | .ok _ => .error .ENOTDIR := by
  simp [Lstat, lstatRev, List.reverse_append]

theorem Lstat_snoc_of_dir (fs : FS) (d : Path) (c : String) (h : Lstat fs d = .ok .dir) :
    Lstat fs (d ++ [c]) =
      match fs (d ++ [c]) with
      | some n => .ok n
      | none => .error .ENOENT := by
  rw [Lstat_snoc, h]

theorem Lstat_snoc_ok (fs : FS) (d : Path) (c : String) (n : Node)
    (h : Lstat fs (d ++ [c]) = .ok n) : Lstat fs d = .ok .dir ∧ fs (d ++ [c]) = some n := by
  rw [Lstat_snoc] at h
  split at h
  · cases h
  · split at h
    · cases h
      exact ⟨by assumption, by assumption⟩
    · cases h
  · cases h

/-- A lookup reads the state only at paths no longer than the one looked up. -/
theorem Lstat_congr (fs fs' : FS) (q : Path)
    (h : ∀ r : Path, r.length ≤ q.length → fs' r = fs r) : Lstat fs' q = Lstat fs q := by
  induction q using List.reverseRecOn with
  | nil => rfl
  | append_singleton d c ih =>
    have hd : Lstat fs' d = Lstat fs d := by
      apply ih
      intro r hr
      apply h
      simp
      omega
    rw [Lstat_snoc, Lstat_snoc, hd, h (d ++ [c]) (le_refl _)]

theorem Lstat_insert_of_lt (fs : FS) (p q : Path) (n : Node) (h : q.length < p.length) :
    Lstat (fs.insert p n) q = Lstat fs q := by
  apply Lstat_congr
  intro r hr
  have : r ≠ p := by
    intro e
    rw [e] at hr
    omega
  simp [FS.insert, this]

theorem Lstat_erase_of_lt (fs : FS) (p q : Path) (h : q.length < p.length) :
    Lstat (fs.erase p) q = Lstat fs q := by
  apply Lstat_congr
  intro r hr
  have : r ≠ p := by
    intro e
    rw [e] at hr
    omega
  simp [FS.erase, this]

theorem Lstat_ancestor_dir (fs : FS) (q t : Path) (n : Node)
    (h : Lstat fs (q ++ t) = .ok n) (ht : t ≠ []) : Lstat fs q = .ok .dir := by
  induction t using List.reverseRecOn generalizing n with
  | nil => exact absurd rfl ht
  | append_singleton t c ih =>
    rw [← List.append_assoc] at h
    have h1 := (Lstat_snoc_ok fs (q ++ t) c n h).1
    by_cases ht' : t = []
    · subst ht'
      simpa using h1
    · exact ih .dir h1 ht'

theorem Lstat_take_dir (fs : FS) (d : Path) (h : Lstat fs d = .ok .dir) (k : Nat) :
    Lstat fs (d.take k) = .ok .dir := by
  by_cases hk : d.drop k = []
  · have : d.take k = d := by
      have := List.take_append_drop k d
      rw [hk, List.append_nil] at this
      exact this
    rw [this, h]
  · apply Lstat_ancestor_dir fs (d.take k) (d.drop k) .dir _ hk
    rw [List.take_append_drop, h]

theorem Lstat_parent_dir (fs : FS) (p : Path) (n : Node) (h : Lstat fs p = .ok n) :
    Lstat fs (Dir p) = .ok .dir := by
  rcases path_cases p with rfl | ⟨d, c, rfl⟩
  · rfl
  · rw [Dir_snoc]
    exact (Lstat_snoc_ok fs d c n h).1

theorem Stat_of_Lstat_dir (fs : FS) (p : Path) (h : Lstat fs p = .ok .dir) :
    Stat fs p = .ok .dir := by
  simp [Stat, follow, h]

theorem Lstat_ok_of_Stat_ok (fs : FS) (p : Path) (n : Node) (h : Stat fs p = .ok n) :
    ∃ m, Lstat fs p = .ok m := by
  rcases hl : Lstat fs p with e | m
  · rw [stat_of_lstat_error fs p e hl] at h
    cases h
  · exact ⟨m, rfl⟩

theorem insert_insert (fs : FS) (p : Path) (n m : Node) :
    (fs.insert p n).insert p m = fs.insert p m := by
  funext q
  simp only [FS.insert]
  split <;> rfl

theorem erase_insert (fs : FS) (p : Path) (n : Node) :
    (fs.erase p).insert p n = fs.insert p n := by
  funext q
  simp only [FS.insert, FS.erase]
  split <;> rfl

theorem create_free (fs : FS) (d : Path) (c : String) (n : Node)
    (hd : Lstat fs d = .ok .dir) (hfree : fs (d ++ [c]) = none) :
    create fs (d ++ [c]) n = .ok (fs.insert (d ++ [c]) n) := by
  simp [create, Dir_snoc, hd, hfree]

theorem create_taken (fs : FS) (d : Path) (c : String) (n m : Node)
    (hd : Lstat fs d = .ok .dir) (htaken : fs (d ++ [c]) = some m) :
    create fs (d ++ [c]) n = .error .EEXIST := by
  simp [create, Dir_snoc, hd, htaken]

theorem MkdirAll_snoc (fs : FS) (d : Path) (c : String) :
    MkdirAll fs (d ++ [c]) =
      match Stat fs (d ++ [c]) with
      | .ok info => if info.IsDir then (none, fs) else (some .ENOTDIR, fs)
      | .error _ =>
        match MkdirAll fs d with
        | (some err, fs1) => (some err, fs1)
        | (none, fs1) =>
          match Mkdir fs1 (d ++ [c]) with
          | .ok fs2 => (none, fs2)
          | .error err =>
            match Lstat fs1 (d ++ [c]) with
            | .ok .dir => (none, fs1)
            | _ => (some err, fs1) := by
  simp [MkdirAll, mkdirAllRev, List.reverse_append]

/-- `MkdirAll` changes nothing when the path already is a directory. -/
theorem MkdirAll_of_dir (fs : FS) (d : Path) (h : Lstat fs d = .ok .dir) :
    MkdirAll fs d = (none, fs) := by
  rcases path_cases d with rfl | ⟨d', c, rfl⟩
  · rfl
  · simp [MkdirAll, mkdirAllRev, List.reverse_append, Stat_of_Lstat_dir fs _ h, Node.IsDir]

/-- When every component of `d` is absent or a directory, `MkdirAll` succeeds, `d` is a
directory afterwards, and nothing stored under a longer path is touched. -/
theorem MkdirAll_creates (fs : FS) (d : Path)
    (hpar : ∀ q : Path, q ≠ [] → q <+: d → fs q = none ∨ fs q = some .dir) :
    ∃ fs1, MkdirAll fs d = (none, fs1) ∧ Lstat fs1 d = .ok .dir ∧
      ∀ r : Path, d.length < r.length → fs1 r = fs r := by
  induction d using List.reverseRecOn with
  | nil => exact ⟨fs, rfl, rfl, fun _ _ => rfl⟩
  | append_singleton d c ih =>
    have hlast : fs (d ++ [c]) = none ∨ fs (d ++ [c]) = some .dir :=
      hpar (d ++ [c]) (by simp) (List.prefix_refl _)
    rcases hs : Stat fs (d ++ [c]) with e | info
    · obtain ⟨fs1, h1, h2, h3⟩ := ih (fun q hq hpre =>
        hpar q hq (hpre.trans (List.prefix_append d [c])))
      have hsame : fs1 (d ++ [c]) = fs (d ++ [c]) := h3 _ (by simp)
      rcases hlast with hnone | hdir
      · refine ⟨fs1.insert (d ++ [c]) .dir, ?_, ?_, ?_⟩
        · rw [MkdirAll_snoc, hs]
          simp only [h1, Mkdir]
          rw [create_free fs1 d c .dir h2 (hsame.trans hnone)]
        · rw [Lstat_snoc, Lstat_insert_of_lt fs1 _ d .dir (by simp), h2]
          simp [FS.insert]
        · intro r hr
          have hne : r ≠ d ++ [c] := by
            intro e'
            rw [e'] at hr
            omega
          simp only [FS.insert, if_neg hne]
          apply h3
          simp at hr
          omega
      · have hl : Lstat fs1 (d ++ [c]) = .ok .dir := by
          rw [Lstat_snoc_of_dir fs1 d c h2, hsame.trans hdir]
        refine ⟨fs1, ?_, hl, ?_⟩
        · rw [MkdirAll_snoc, hs]
          simp only [h1, Mkdir]
          rw [create_taken fs1 d c .dir .dir h2 (hsame.trans hdir)]
          simp only [hl]
        · intro r hr
          apply h3
          simp at hr
          omega
    · obtain ⟨m, hm⟩ := Lstat_ok_of_Stat_ok fs _ info hs
      obtain ⟨hd, hn⟩ := Lstat_snoc_ok fs d c m hm
      have hmd : m = .dir := by
        rcases hlast with hnone | hdir
        · rw [hnone] at hn
          cases hn
        · rw [hdir] at hn
          cases hn
          rfl
      subst hmd
      have hs' := Stat_of_Lstat_dir fs _ hm
      refine ⟨fs, ?_, hm, fun _ _ => rfl⟩
      rw [MkdirAll_snoc, hs']
      simp [Node.IsDir]

/-! ## Lemmas about `EnsureSymlink` -/

/-- Once the parent is a directory and the target is not one, `EnsureSymlink` succeeds and
leaves the link in the target's place. -/
theorem ensureSymlink_after_mkdir (fs fs1 : FS) (d : Path) (c : String) (source : Path)
    (hmk : MkdirAll fs d = (none, fs1)) (hd : Lstat fs1 d = .ok .dir)
    (hnd : fs1 (d ++ [c]) ≠ some .dir) :
    EnsureSymlink fs (d ++ [c]) source = (none, fs1.insert (d ++ [c]) (.symlink source)) := by
  unfold EnsureSymlink
  rw [Dir_snoc, hmk]
  simp only
  rw [Lstat_snoc_of_dir fs1 d c hd]
  rcases ht : fs1 (d ++ [c]) with _ | n
  · simp only [GoError.isNotExist, createLink, Symlink]
    rw [create_free fs1 d c _ hd ht]
    simp
  · have hn : n ≠ .dir := fun e => hnd (by rw [ht, e])
    have hdirF : n.IsDir = false := by
      cases n <;> simp_all [Node.IsDir]
    have hrm : Remove fs1 (d ++ [c]) = .ok (fs1.erase (d ++ [c])) := by
      unfold Remove
      rw [Lstat_snoc_of_dir fs1 d c hd, ht]
      cases n <;> simp_all
    simp only [hdirF, hrm, createLink, Symlink]
    rw [create_free (fs1.erase (d ++ [c])) d c _
      ((Lstat_erase_of_lt fs1 _ d (by simp)).trans hd) (by simp [FS.erase])]
    simp [erase_insert]

theorem createLink_ok (fs : FS) (target source : Path)
    (h : (createLink fs target source).1 = none) :
    ∃ d c, target = d ++ [c] ∧ Lstat fs d = .ok .dir ∧
      (createLink fs target source).2 = fs.insert target (.symlink source) := by
  rcases path_cases target with rfl | ⟨d, c, rfl⟩
  · simp [createLink, Symlink, create] at h
  · refine ⟨d, c, rfl, ?_⟩
    rcases hd : Lstat fs d with e | n
    · simp [createLink, Symlink, create, Dir_snoc, hd] at h
    · cases n with
      | dir =>
        refine ⟨rfl, ?_⟩
        rcases ht : fs (d ++ [c]) with _ | m
        · simp [createLink, Symlink, create, Dir_snoc, hd, ht]
        · simp [createLink, Symlink, create, Dir_snoc, hd, ht] at h
      | file _ _ => simp [createLink, Symlink, create, Dir_snoc, hd] at h
      | symlink _ => simp [createLink, Symlink, create, Dir_snoc, hd] at h
      | other => simp [createLink, Symlink, create, Dir_snoc, hd] at h

/-- A successful `EnsureSymlink` ends by storing the link under `target`, in a state where
the parent of `target` is a directory. -/
theorem ensureSymlink_ok (fs : FS) (target source : Path)
    (h : (EnsureSymlink fs target source).1 = none) :
    ∃ fsx d c, target = d ++ [c] ∧ Lstat fsx d = .ok .dir ∧
      (EnsureSymlink fs target source).2 = fsx.insert target (.symlink source) := by
  unfold EnsureSymlink at h ⊢
  split at h
  · cases h
  · rename_i fs1 _
    split at h
    · split at h
      · cases h
      · split at h
        · cases h
        · rename_i fs2 hrm
          obtain ⟨d, c, ht, hd, hfin⟩ := createLink_ok fs2 target source h
          refine ⟨fs2, d, c, ht, hd, ?_⟩
          simp_all
    · split at h
      · cases h
      · obtain ⟨d, c, ht, hd, hfin⟩ := createLink_ok fs1 target source h
        refine ⟨fs1, d, c, ht, hd, ?_⟩
        simp_all

/-! ## Lemmas about the manifest -/

theorem findIn_upsertIn (entry : FileEntry) (files : List FileEntry) :
    findIn entry.Target (upsertIn entry files) = some entry := by
  induction files with
  | nil => simp [upsertIn, findIn]
  | cons x xs ih =>
    by_cases h : x.Target = entry.Target
    · simp [upsertIn, findIn, h]
    · simp [upsertIn, findIn, h, ih]

theorem findIn_eq_find (target : Path) (files : List FileEntry) :
    findIn target files = files.find? (fun e => decide (e.Target = target)) := by
  induction files with
  | nil => rfl
  | cons x xs ih =>
    by_cases h : x.Target = target
    · simp [findIn, List.find?, h]
    · simp [findIn, List.find?, h, ih]

theorem findIn_none_iff (target : Path) (files : List FileEntry) :
    findIn target files = none ↔ ∀ e ∈ files, e.Target ≠ target := by
  rw [findIn_eq_find]
  simp

theorem upsertIn_length (entry : FileEntry) (files : List FileEntry) :
    (upsertIn entry files).length =
      if ∃ e ∈ files, e.Target = entry.Target then files.length else files.length + 1 := by
  induction files with
  | nil => simp [upsertIn]
  | cons x xs ih =>
    by_cases h : x.Target = entry.Target
    · simp [upsertIn, h]
    · simp only [upsertIn, h, if_false, List.length_cons, ih, List.mem_cons, exists_eq_or_imp,
        false_or]
      split <;> rfl

theorem upsertIn_targets_mem (entry : FileEntry) (files : List FileEntry) (t : Path)
    (h : t ∈ (upsertIn entry files).map FileEntry.Target) :
    t = entry.Target ∨ t ∈ files.map FileEntry.Target := by
  induction files with
  | nil =>
    simp [upsertIn] at h
    exact Or.inl h
  | cons x xs ih =>
    by_cases hx : x.Target = entry.Target
    · simp only [upsertIn, hx, if_true, List.map_cons, List.mem_cons] at h
      rcases h with h | h
      · exact Or.inl h
      · exact Or.inr (by simp [h])
    · simp only [upsertIn, hx, if_false, List.map_cons, List.mem_cons] at h
      rcases h with h | h
      · exact Or.inr (by simp [h])
      · rcases ih h with h' | h'
        · exact Or.inl h'
        · exact Or.inr (by simp [h'])

theorem upsertIn_nodup (entry : FileEntry) (files : List FileEntry)
    (h : (files.map FileEntry.Target).Nodup) :
    ((upsertIn entry files).map FileEntry.Target).Nodup := by
  induction files with
  | nil => simp [upsertIn]
  | cons x xs ih =>
    simp only [List.map_cons, List.nodup_cons] at h
    by_cases hx : x.Target = entry.Target
    · simp only [upsertIn, hx, if_true, List.map_cons, List.nodup_cons]
      exact ⟨hx ▸ h.1, h.2⟩
    · simp only [upsertIn, hx, if_false, List.map_cons, List.nodup_cons]
      refine ⟨?_, ih h.2⟩
      intro hm
      rcases upsertIn_targets_mem entry xs _ hm with h' | h'
      · exact hx h'
      · exact h.1 h'

theorem upsertIn_get_other (entry : FileEntry) (files : List FileEntry) (i : Nat)
    (e : FileEntry) (hget : files[i]? = some e) (hne : e.Target ≠ entry.Target) :
    (upsertIn entry files)[i]? = some e := by
  induction files generalizing i with
  | nil => simp at hget
  | cons x xs ih =>
    cases i with
    | zero =>
      simp at hget
      subst hget
      simp [upsertIn, hne]
    | succ j =>
      simp at hget
      by_cases hx : x.Target = entry.Target
      · simp [upsertIn, hx, hget]
      · simp [upsertIn, hx, ih j hget]

/-! ## Lemmas about copying -/

/-- Storing something at `p` does not change what a lookup finds at another path, as long
as `p` was not a directory that lookups walk through. -/
theorem Lstat_insert_of_ok (fs : FS) (p q : Path) (x n : Node)
    (h : Lstat fs q = .ok n) (hne : q ≠ p) (hp : Lstat fs p ≠ .ok .dir) :
    Lstat (fs.insert p x) q = .ok n := by
  induction q using List.reverseRecOn generalizing n with
  | nil => exact h
  | append_singleton d c ih =>
    obtain ⟨hd, hn⟩ := Lstat_snoc_ok fs d c n h
    have hdp : d ≠ p := fun e => hp (e ▸ hd)
    rw [Lstat_snoc_of_dir _ d c (ih .dir hd hdp)]
    simp [FS.insert, hne, hn]

theorem Lstat_lookup (fs : FS) (q : Path) (n : Node) (h : Lstat fs q = .ok n)
    (hq : q ≠ []) : fs q = some n := by
  rcases path_cases q with rfl | ⟨d, c, rfl⟩
  · exact absurd rfl hq
  · exact (Lstat_snoc_ok fs d c n h).2

theorem Lstat_file_ne_nil (fs : FS) (q : Path) (c : List Nat) (m : Nat)
    (h : Lstat fs q = .ok (.file c m)) : q ≠ [] := by
  intro e
  subst e
  cases h

/-- Storing a node at a path whose parent is a directory makes a lookup find it. -/
theorem Lstat_insert_self (fs : FS) (p : Path) (x : Node) (hp : p ≠ [])
    (hd : Lstat fs (Dir p) = .ok .dir) : Lstat (fs.insert p x) p = .ok x := by
  rcases path_cases p with rfl | ⟨d, c, rfl⟩
  · exact absurd rfl hp
  · rw [Dir_snoc] at hd
    rw [Lstat_snoc_of_dir _ d c ((Lstat_insert_of_lt fs _ d x (by simp)).trans hd)]
    simp [FS.insert]

theorem openHandle_file (fs : FS) (k : Nat) (p : Path) (c : List Nat) (m : Nat)
    (h : Lstat fs p = .ok (.file c m)) :
    openHandle fs k p = if m / 256 % 2 = 1 then .ok (p, .file c m) else .error .EACCES := by
  cases k <;> simp [openHandle, h]

theorem openFileTrunc_file (umask : Nat) (fs : FS) (perm k : Nat) (p : Path)
    (c : List Nat) (mode : Nat) (h : Lstat fs p = .ok (.file c mode)) :
    openFileTrunc umask fs perm k p =
      if mode / 128 % 2 = 1 then .ok (p, fs.insert p (.file [] mode))
      else .error .EACCES := by
  cases k <;> simp [openFileTrunc, h]

theorem openFileTrunc_error (umask : Nat) (fs : FS) (perm k : Nat) (p : Path) (e : Errno)
    (h : Lstat fs p = .error e) :
    openFileTrunc umask fs perm k p =
      if e = .ENOENT then
        match create fs p (.file [] (createMode umask perm)) with
        | .ok fs1 => .ok (p, fs1)
        | .error e1 => .error e1
      else .error e := by
  cases k <;> simp [openFileTrunc, h]

theorem openFileTrunc_dir (umask : Nat) (fs : FS) (perm k : Nat) (p : Path)
    (h : Lstat fs p = .ok .dir) :
    openFileTrunc umask fs perm k p = .error .EISDIR := by
  cases k <;> simp [openFileTrunc, h]

theorem openFileTrunc_other (umask : Nat) (fs : FS) (perm k : Nat) (p : Path)
    (h : Lstat fs p = .ok .other) :
    openFileTrunc umask fs perm k p = .error .ENODEVICE := by
  cases k <;> simp [openFileTrunc, h]

theorem create_ok (fs fs1 : FS) (p : Path) (n : Node) (h : create fs p n = .ok fs1) :
    p ≠ [] ∧ Lstat fs (Dir p) = .ok .dir ∧ fs p = none ∧ fs1 = fs.insert p n := by
  unfold create at h
  split at h
  · cases h
  · rename_i hpne
    split at h
    · cases h
    · rename_i hdir
      split at h
      · cases h
      · rename_i hfree
        cases h
        exact ⟨hpne, hdir, hfree, rfl⟩
    · cases h

/-- Opening a path that is not a symbolic link for writing: the handle is at that path,
which is emptied or created as a regular file below a directory. -/
theorem openFileTrunc_direct (umask : Nat) (fs : FS) (perm k : Nat) (p : Path)
    (hl : ∀ raw, Lstat fs p ≠ .ok (.symlink raw)) (place : Path) (fs1 : FS)
    (h : openFileTrunc umask fs perm k p = .ok (place, fs1)) :
    place = p ∧ p ≠ [] ∧ Lstat fs (Dir p) = .ok .dir ∧ Lstat fs p ≠ .ok .dir ∧
    ∃ mode, fs1 = fs.insert p (.file [] mode) := by
  rcases hs : Lstat fs p with e | n
  · rw [openFileTrunc_error umask fs perm k p e hs] at h
    split at h
    · split at h
      · rename_i fs2 hc
        obtain ⟨h1, h2, _, h4⟩ := create_ok fs fs2 p _ hc
        simp only [Except.ok.injEq, Prod.mk.injEq] at h
        exact ⟨h.1.symm, h1, h2, by simp, _, h.2 ▸ h4⟩
      · cases h
    · cases h
  · cases n with
    | symlink raw => exact absurd hs (hl raw)
    | file c mode =>
      rw [openFileTrunc_file umask fs perm k p c mode hs] at h
      split at h
      · simp only [Except.ok.injEq, Prod.mk.injEq] at h
        exact ⟨h.1.symm, Lstat_file_ne_nil fs p c mode hs, Lstat_parent_dir fs p _ hs,
          by simp, mode, h.2.symm⟩
      · cases h
    | dir =>
      rw [openFileTrunc_dir umask fs perm k p hs] at h
      cases h
    | other =>
      rw [openFileTrunc_other umask fs perm k p hs] at h
      cases h

/-- The handle that `openHandle` gives refers to the node that `Open` gives. -/
theorem openHandle_follow (fs : FS) (k : Nat) (p : Path) :
    (openHandle fs k p).map Prod.snd =
      match follow fs k p with
      | .error e => .error e
      | .ok (.file c perm) =>
        if perm / 256 % 2 = 1 then .ok (.file c perm) else .error .EACCES
      | .ok .other => .error .ENODEVICE
      | .ok n => .ok n := by
  induction k generalizing p with
  | zero =>
    rcases hl : Lstat fs p with e | n
    · simp [openHandle, follow, hl, Except.map]
    · cases n with
      | symlink raw => simp [openHandle, follow, hl, Except.map]
      | file c m =>
        by_cases hr : m / 256 % 2 = 1 <;> simp [openHandle, follow, hl, Except.map, hr]
      | dir => simp [openHandle, follow, hl, Except.map]
      | other => simp [openHandle, follow, hl, Except.map]
  | succ k ih =>
    rcases hl : Lstat fs p with e | n
    · simp [openHandle, follow, hl, Except.map]
    · cases n with
      | symlink raw =>
        have h1 : openHandle fs (k + 1) p = openHandle fs k raw := by
          conv_lhs => unfold openHandle
          simp only [hl]
        have h2 : follow fs (k + 1) p = follow fs k raw := by
          conv_lhs => unfold follow
          simp only [hl]
        rw [h1, h2]
        exact ih raw
      | file c m =>
        by_cases hr : m / 256 % 2 = 1 <;> simp [openHandle, follow, hl, Except.map, hr]
      | dir => simp [openHandle, follow, hl, Except.map]
      | other => simp [openHandle, follow, hl, Except.map]

theorem Open_eq_openHandle (fs : FS) (p : Path) :
    Open fs p = (openHandle fs 40 p).map Prod.snd := by
  rw [openHandle_follow]
  rfl

/-- A successful copy between two different paths, of a regular file onto a path that is
not a symbolic link: the state afterwards has the source bytes stored at the destination,
under the mode the destination had before or, when it was absent, the source mode less
the umask. -/
theorem copyFile_distinct (umask : Nat) (fs : FS) (src dst : Path) (c : List Nat) (m : Nat)
    (hsrc : Lstat fs src = .ok (.file c m))
    (hdst : ∀ raw, Lstat fs dst ≠ .ok (.symlink raw)) (hne : src ≠ dst)
    (hok : (copyFile umask fs src dst).1 = none) :
    dst ≠ [] ∧ Lstat fs (Dir dst) = .ok .dir ∧ Lstat fs dst ≠ .ok .dir ∧
    ∃ mode, (copyFile umask fs src dst).2 = fs.insert dst (.file c mode) ∧
      ((∃ old, Lstat fs dst = .ok (.file old mode)) ∨
       (Lstat fs dst = .error .ENOENT ∧ mode = createMode umask (m % 512))) := by
  unfold copyFile at hok ⊢
  rw [openHandle_file fs 40 src c m hsrc] at hok ⊢
  by_cases hr : m / 256 % 2 = 1
  · simp only [hr, if_true] at hok ⊢
    rcases ho : openFileTrunc umask fs (Node.file c m).Perm 40 dst with e | ⟨place, fs1⟩
    · rw [ho] at hok
      cases hok
    · obtain ⟨hplace, h1, h2, h3, mode, h5⟩ :=
        openFileTrunc_direct umask fs _ 40 dst hdst place fs1 ho
      subst hplace
      subst h5
      have hrd : readHandle (fs.insert place (.file [] mode)) src = .ok c := by
        have := Lstat_lookup fs src _ hsrc (Lstat_file_ne_nil fs src c m hsrc)
        simp [readHandle, FS.insert, hne, this]
      refine ⟨h1, h2, h3, mode, ?_, ?_⟩
      · simp only [hrd]
        simp [writeHandle, FS.insert, insert_insert]
      · rcases hs : Lstat fs place with e | n
        · rw [openFileTrunc_error umask fs _ 40 place e hs] at ho
          split at ho
          · rename_i he
            subst he
            split at ho
            · rename_i fs2 hc
              obtain ⟨_, _, _, h4⟩ := create_ok fs fs2 place _ hc
              simp only [Except.ok.injEq, Prod.mk.injEq, true_and] at ho
              rw [h4] at ho
              have := congrFun ho place
              simp [FS.insert, Node.Perm] at this
              exact Or.inr ⟨rfl, this.symm⟩
            · cases ho
          · cases ho
        · cases n with
          | symlink raw => exact absurd hs (hdst raw)
          | file old md =>
            rw [openFileTrunc_file umask fs _ 40 place old md hs] at ho
            split at ho
            · simp only [Except.ok.injEq, Prod.mk.injEq, true_and] at ho
              have := congrFun ho place
              simp [FS.insert] at this
              exact Or.inl ⟨old, by rw [this]⟩
            · cases ho
          | dir => exact absurd hs h3
          | other =>
            rw [openFileTrunc_other umask fs _ 40 place hs] at ho
            cases ho
  · simp [hr] at hok

/-- What `CopyIntoDots` does for a regular file that is not its own stored path, when the
stored path is not a symbolic link and the import succeeds. -/
theorem copyIntoDots_distinct (umask : Nat) (fs : FS) (home src : Path) (c : List Nat)
    (m : Nat) (hsrc : Lstat fs src = .ok (.file c m))
    (hdst : ∀ raw, Lstat fs (Join (DotsDir home) (Base src)) ≠ .ok (.symlink raw))
    (hne : src ≠ Join (DotsDir home) (Base src))
    (hok : ∃ d, (CopyIntoDots umask fs home src).1 = .ok d) :
    (CopyIntoDots umask fs home src).1 = .ok (Join (DotsDir home) (Base src)) ∧
    Lstat fs (Join (DotsDir home) (Base src)) ≠ .ok .dir ∧
    ∃ mode, (CopyIntoDots umask fs home src).2 =
        fs.insert (Join (DotsDir home) (Base src)) (.file c mode) ∧
      Lstat (CopyIntoDots umask fs home src).2 (Join (DotsDir home) (Base src)) =
        .ok (.file c mode) := by
  obtain ⟨d, hd⟩ := hok
  unfold CopyIntoDots at hd ⊢
  simp only [hsrc, Node.IsDir, Node.IsSymlink, Bool.false_eq_true, if_false, CopyFile] at hd ⊢
  rcases hcp : copyFile umask fs src (Join (DotsDir home) (Base src)) with ⟨err, fs1⟩
  rw [hcp] at hd
  cases err with
  | some e => cases hd
  | none =>
    have hok1 : (copyFile umask fs src (Join (DotsDir home) (Base src))).1 = none := by
      rw [hcp]
    obtain ⟨h1, h2, h3, mode, h4, _⟩ := copyFile_distinct umask fs src _ c m hsrc hdst hne hok1
    rw [hcp] at h4
    simp only at h4
    subst h4
    refine ⟨rfl, h3, mode, rfl, ?_⟩
    exact Lstat_insert_self fs _ _ h1 h2

/-! ## Lemmas about removal and about the state `EnsureSymlink` leaves -/

theorem removeSymlink_nonlink (fs : FS) (target : Path) (n : Node)
    (h : Lstat fs target = .ok n) (hn : n.IsSymlink = false) :
    ∃ err, removeSymlink fs target = (some err, fs) := by
  unfold removeSymlink
  rw [h]
  by_cases hd : n.IsDir = true
  · exact ⟨.new ("target " ++ render target ++ " is a directory"), by simp [hd]⟩
  · exact ⟨.new ("target " ++ render target ++ " is not a symlink"), by simp [hd, hn]⟩

theorem removeSymlink_link (fs : FS) (target raw : Path)
    (h : Lstat fs target = .ok (.symlink raw)) :
    removeSymlink fs target = (none, fs.erase target) := by
  simp [removeSymlink, h, Node.IsDir, Node.IsSymlink, Remove]

theorem removeSymlink_absent (fs : FS) (target : Path)
    (h : Lstat fs target = .error .ENOENT) : removeSymlink fs target = (none, fs) := by
  simp [removeSymlink, h, GoError.isNotExist]

theorem Lstat_erase_self (fs : FS) (p : Path) (n : Node) (h : Lstat fs p = .ok n)
    (hp : p ≠ []) : Lstat (fs.erase p) p = .error .ENOENT := by
  rcases path_cases p with rfl | ⟨d, c, rfl⟩
  · exact absurd rfl hp
  · have hd := (Lstat_snoc_ok fs d c n h).1
    rw [Lstat_snoc_of_dir _ d c ((Lstat_erase_of_lt fs _ d (by simp)).trans hd)]
    simp [FS.erase]

/-- After a successful `removeSymlink` nothing is found at the target. -/
theorem removeSymlink_ok_absent (fs : FS) (target : Path)
    (h : (removeSymlink fs target).1 = none) :
    Lstat (removeSymlink fs target).2 target = .error .ENOENT := by
  rcases hl : Lstat fs target with e | n
  · by_cases he : e = .ENOENT
    · subst he
      rw [removeSymlink_absent fs target hl]
      exact hl
    · simp [removeSymlink, hl, GoError.isNotExist, he] at h
  · cases n with
    | symlink raw =>
      rw [removeSymlink_link fs target raw hl]
      apply Lstat_erase_self fs target _ hl
      intro e
      subst e
      cases hl
    | file c m =>
      obtain ⟨err, he⟩ := removeSymlink_nonlink fs target _ hl rfl
      rw [he] at h
      cases h
    | dir =>
      obtain ⟨err, he⟩ := removeSymlink_nonlink fs target _ hl rfl
      rw [he] at h
      cases h
    | other =>
      obtain ⟨err, he⟩ := removeSymlink_nonlink fs target _ hl rfl
      rw [he] at h
      cases h

/-- After a successful `EnsureSymlink` a lookup of the target finds the link. -/
theorem ensureSymlink_ok_lstat (fs : FS) (target source : Path)
    (h : (EnsureSymlink fs target source).1 = none) :
    Lstat (EnsureSymlink fs target source).2 target = .ok (.symlink source) := by
  obtain ⟨fsx, d, c, rfl, hd, hfin⟩ := ensureSymlink_ok fs target source h
  rw [hfin]
  have hd' : Lstat (fsx.insert (d ++ [c]) (.symlink source)) d = .ok .dir :=
    (Lstat_insert_of_lt fsx _ d _ (by simp)).trans hd
  rw [Lstat_snoc_of_dir _ d c hd']
  simp [FS.insert]

theorem findIn_first (target : Path) (files : List FileEntry) (e : FileEntry)
    (h : findIn target files = some e) :
    e.Target = target ∧
    ∃ before after, files = before ++ e :: after ∧ ∀ x ∈ before, x.Target ≠ target := by
  induction files with
  | nil => simp [findIn] at h
  | cons x xs ih =>
    by_cases hx : x.Target = target
    · simp only [findIn, hx, if_true, Option.some.injEq] at h
      subst h
      exact ⟨hx, [], xs, rfl, by simp⟩
    · simp only [findIn, hx, if_false] at h
      obtain ⟨h1, before, after, h2, h3⟩ := ih h
      refine ⟨h1, x :: before, after, by simp [h2], ?_⟩
      intro y hy
      simp only [List.mem_cons] at hy
      rcases hy with rfl | hy
      · exact hx
      · exact h3 y hy

theorem target_missing_ne (s : String) : "links to " ++ s ≠ "target missing" := by
  intro h
  have := congrArg String.data h
  simp at this

/-- The byte comparison never answers "target missing" when the target cannot be opened. -/
theorem contentStatus_info_ne (H : List Nat → String) (fs : FS) (entry : FileEntry)
    (st : StatusEntry) (h : ContentStatus H fs entry = .ok st) :
    st.Info ≠ "target missing" := by
  unfold ContentStatus at h
  rcases hl : Lstat fs entry.Target with e | n
  · by_cases he : e = .ENOENT
    · subst he
      have ho : Open fs entry.Target = .error .ENOENT := by
        simp [Open, stat_of_lstat_error fs _ _ hl]
      have hh : fileHash H fs entry.Target = .error (.wrap "open file" (.sys .ENOENT)) := by
        simp [fileHash, ho]
      rw [linkStatus_absent fs entry hl] at h
      simp only [reduceCtorEq, if_false, true_or, if_true] at h
      split at h
      · split at h
        · cases h
          simp
        · cases h
      · unfold compareContent sameContent at h
        rw [hh] at h
        split at h
        · cases h
        · rename_i heq
          split at heq
          · cases heq
          · simp [GoError.isNotExist] at heq
        · cases h
          simp
    · rw [linkStatus_failed fs entry e hl he] at h
      cases h
  · cases n with
    | symlink raw =>
      rw [linkStatus_link fs entry raw hl] at h
      by_cases hr : raw = entry.Source
      · simp only [hr, if_true] at h
        cases h
        simp
      · simp only [hr, if_false, reduceCtorEq, or_true, if_true] at h
        split at h
        · split at h
          · cases h
            simp
          · cases h
        · cases h
          exact target_missing_ne _
    | file c m =>
      rw [linkStatus_nonlink fs entry _ hl rfl] at h
      simp only [reduceCtorEq, if_false, or_true, if_true] at h
      split at h
      · split at h
        · cases h
          simp
        · cases h
      · cases h
        simp
    | dir =>
      rw [linkStatus_nonlink fs entry _ hl rfl] at h
      simp only [reduceCtorEq, if_false, or_true, if_true] at h
      split at h
      · split at h
        · cases h
          simp
        · cases h
      · cases h
        simp
    | other =>
      rw [linkStatus_nonlink fs entry _ hl rfl] at h
      simp only [reduceCtorEq, if_false, or_true, if_true] at h
      split at h
      · split at h
        · cases h
          simp
        · cases h
      · cases h
        simp

theorem contentStatus_of_conflict (H : List Nat → String) (fs : FS) (entry : FileEntry)
    (status st : StatusEntry) (hlink : LinkStatus fs entry = .ok status)
    (hst : status.Status = .StatusConflicts) (h : ContentStatus H fs entry = .ok st) :
    st = status ∨ st = ⟨entry, .StatusMissing, "stored file missing"⟩ := by
  rcases hs : Stat fs entry.Source with e | m
  · by_cases he : e = .ENOENT
    · subst he
      rw [contentStatus_stored_missing H fs entry status hlink (Or.inr hst) hs] at h
      cases h
      exact Or.inr rfl
    · simp [ContentStatus, hlink, hst, hs, GoError.isNotExist, he] at h
  · rw [contentStatus_conflict_kept H fs entry status m hlink hst hs] at h
    cases h
    exact Or.inl rfl

/-- With something at the target, a returned verdict is `StatusLinked`, `StatusConflicts`,
or `StatusMissing` with "stored file missing". -/
theorem contentStatus_present (H : List Nat → String) (fs : FS) (entry : FileEntry)
    (st : StatusEntry) (n : Node) (hl : Lstat fs entry.Target = .ok n)
    (h : ContentStatus H fs entry = .ok st) :
    st.Status = .StatusLinked ∨ st.Status = .StatusConflicts ∨
      (st.Status = .StatusMissing ∧ st.Info = "stored file missing") := by
  have hconf : ∀ status : StatusEntry, LinkStatus fs entry = .ok status →
      status.Status = .StatusConflicts →
      st.Status = .StatusLinked ∨ st.Status = .StatusConflicts ∨
        (st.Status = .StatusMissing ∧ st.Info = "stored file missing") := by
    intro status hlink hst
    rcases contentStatus_of_conflict H fs entry status st hlink hst h with e | e
    · exact Or.inr (Or.inl (e ▸ hst))
    · exact Or.inr (Or.inr (by rw [e]; exact ⟨rfl, rfl⟩))
  cases n with
  | symlink raw =>
    by_cases hr : raw = entry.Source
    · subst hr
      rw [contentStatus_of_linked H fs entry hl] at h
      cases h
      exact Or.inl rfl
    · have hlink := linkStatus_link fs entry raw hl
      rw [if_neg hr] at hlink
      exact hconf _ hlink rfl
  | file c m => exact hconf _ (linkStatus_nonlink fs entry _ hl rfl) rfl
  | dir => exact hconf _ (linkStatus_nonlink fs entry _ hl rfl) rfl
  | other => exact hconf _ (linkStatus_nonlink fs entry _ hl rfl) rfl

/-- A `StatusDiverged` verdict is only given with nothing at the target and a stored copy
that `os.Stat` finds. -/
theorem contentStatus_diverged (H : List Nat → String) (fs : FS) (entry : FileEntry)
    (st : StatusEntry) (h : ContentStatus H fs entry = .ok st)
    (hd : st.Status = .StatusDiverged) :
    Lstat fs entry.Target = .error .ENOENT ∧ ∃ n, Stat fs entry.Source = .ok n := by
  rcases hl : Lstat fs entry.Target with e | n
  · by_cases he : e = .ENOENT
    · subst he
      refine ⟨rfl, ?_⟩
      rcases hs : Stat fs entry.Source with e' | m
      · by_cases he' : e' = .ENOENT
        · subst he'
          rw [contentStatus_stored_missing H fs entry _ (linkStatus_absent fs entry hl)
            (Or.inl rfl) hs] at h
          cases h
          cases hd
        · simp [ContentStatus, linkStatus_absent fs entry hl, hs, GoError.isNotExist, he'] at h
      · exact ⟨m, rfl⟩
    · rw [ContentStatus, linkStatus_failed fs entry e hl he] at h
      cases h
  · rcases contentStatus_present H fs entry st n hl h with h1 | h1 | ⟨h1, _⟩ <;>
      rw [h1] at hd <;> cases hd

/-! ## The claims -/

/-- C1: when the target is a symbolic link whose raw value equals `entry.Source`,
`ContentStatus` returns `StatusLinked` with empty `Info` and no error. Nothing is assumed
about the stored copy, and the same answer is given in every other state (and for every
digest function) in which the no-follow probe of the target gives the same result: the
stored copy is never consulted. -/
theorem C1_linked_short_circuits (H : List Nat → String) (fs : FS) (entry : FileEntry)
    (hlink : Lstat fs entry.Target = .ok (.symlink entry.Source)) :
    ContentStatus H fs entry = .ok ⟨entry, .StatusLinked, ""⟩ ∧
    ∀ (H' : List Nat → String) (fs' : FS),
      Lstat fs' entry.Target = Lstat fs entry.Target →
      ContentStatus H' fs' entry = .ok ⟨entry, .StatusLinked, ""⟩ :=
  ⟨contentStatus_of_linked H fs entry hlink,
   fun H' fs' h => contentStatus_of_linked H' fs' entry (h.trans hlink)⟩

/-- C1 at a dangling link: `/home/.bashrc` links to `/store/.bashrc`, which does not exist. -/
theorem C1_witness_dangling_link :
    Lstat fsDangling bashrcEntry.Target = .ok (.symlink bashrcEntry.Source) ∧
    Stat fsDangling bashrcEntry.Source = .error .ENOENT ∧
    ContentStatus sampleDigest fsDangling bashrcEntry =
      .ok ⟨bashrcEntry, .StatusLinked, ""⟩ :=
  ⟨rfl, rfl, (C1_linked_short_circuits sampleDigest fsDangling bashrcEntry rfl).1⟩

/-- C2, the code at the failing input: nothing is at `/home/.bashrc`, the stored copy
`/store/.bashrc` is a readable regular file, and `ContentStatus` answers `StatusDiverged`
with empty `Info` instead of `StatusMissing` with "target missing". -/
theorem C2_target_absent_reports_diverged :
    Lstat fsTargetAbsent bashrcEntry.Target = .error .ENOENT ∧
    Open fsTargetAbsent bashrcEntry.Source = .ok (.file [101, 120] 420) ∧
    ContentStatus sampleDigest fsTargetAbsent bashrcEntry =
      .ok ⟨bashrcEntry, .StatusDiverged, ""⟩ ∧
    ContentStatus sampleDigest fsTargetAbsent bashrcEntry ≠
      .ok ⟨bashrcEntry, .StatusMissing, "target missing"⟩ :=
  ⟨rfl, rfl, rfl, by decide⟩

/-- C3 fails as stated: with nothing at the stored path and the target a symbolic link to
that very path, `ContentStatus` returns `StatusLinked`, not `StatusMissing`. -/
theorem C3_counterexample_dangling_link :
    Lstat fsDangling bashrcEntry.Source = .error .ENOENT ∧
    Stat fsDangling bashrcEntry.Source = .error .ENOENT ∧
    Lstat fsDangling bashrcEntry.Target = .ok (.symlink bashrcEntry.Source) ∧
    ContentStatus sampleDigest fsDangling bashrcEntry =
      .ok ⟨bashrcEntry, .StatusLinked, ""⟩ ∧
    ContentStatus sampleDigest fsDangling bashrcEntry ≠
      .ok ⟨bashrcEntry, .StatusMissing, "stored file missing"⟩ := by
  decide

/-- C3 as amended: when nothing exists at the stored path (`os.Stat` reports not-exist)
and the target is absent or holds anything other than a symbolic link whose raw value
equals `entry.Source` (a regular file, a directory, another node, a link to another path),
`ContentStatus` returns `StatusMissing` with `Info` "stored file missing". -/
theorem C3_stored_missing_unless_linked (H : List Nat → String) (fs : FS) (entry : FileEntry)
    (hsrc : Stat fs entry.Source = .error .ENOENT)
    (htgt : Lstat fs entry.Target = .error .ENOENT ∨
      ∃ n, Lstat fs entry.Target = .ok n ∧ n ≠ .symlink entry.Source) :
    ContentStatus H fs entry = .ok ⟨entry, .StatusMissing, "stored file missing"⟩ := by
  rcases htgt with h | ⟨n, h, hn⟩
  · exact contentStatus_stored_missing H fs entry _ (linkStatus_absent fs entry h)
      (Or.inl rfl) hsrc
  · cases n with
    | symlink raw =>
      have hr : raw ≠ entry.Source := fun hr => hn (by rw [hr])
      have hl := linkStatus_link fs entry raw h
      rw [if_neg hr] at hl
      exact contentStatus_stored_missing H fs entry _ hl (Or.inr rfl) hsrc
    | file c perm =>
      exact contentStatus_stored_missing H fs entry _ (linkStatus_nonlink fs entry _ h rfl)
        (Or.inr rfl) hsrc
    | dir =>
      exact contentStatus_stored_missing H fs entry _ (linkStatus_nonlink fs entry _ h rfl)
        (Or.inr rfl) hsrc
    | other =>
      exact contentStatus_stored_missing H fs entry _ (linkStatus_nonlink fs entry _ h rfl)
        (Or.inr rfl) hsrc

/-- C3 as amended, at a target that is a directory and at a target that links elsewhere,
both without a stored copy. -/
theorem C3_witness_directory_and_wrong_link :
    ContentStatus sampleDigest fsBothAbsent ⟨["store", ".bashrc"], ["home"]⟩ =
      .ok ⟨⟨["store", ".bashrc"], ["home"]⟩, .StatusMissing, "stored file missing"⟩ ∧
    ContentStatus sampleDigest fsWrongLinkNoStore bashrcEntry =
      .ok ⟨bashrcEntry, .StatusMissing, "stored file missing"⟩ :=
  ⟨C3_stored_missing_unless_linked sampleDigest fsBothAbsent ⟨["store", ".bashrc"], ["home"]⟩
      rfl (Or.inr ⟨.dir, rfl, by decide⟩),
   C3_stored_missing_unless_linked sampleDigest fsWrongLinkNoStore bashrcEntry
      rfl (Or.inr ⟨.symlink ["other"], rfl, by decide⟩)⟩

/-- C4: when `LinkStatus` returns `StatusMissing` or `StatusConflicts` and `os.Stat` finds
nothing at the stored path, `ContentStatus` returns, without error, the input entry with
`StatusMissing` and `Info` "stored file missing", whatever `Info` the conflict carried. -/
theorem C4_stored_missing_overrides (H : List Nat → String) (fs : FS) (entry : FileEntry)
    (status : StatusEntry) (hlink : LinkStatus fs entry = .ok status)
    (hst : status.Status = .StatusMissing ∨ status.Status = .StatusConflicts)
    (hsrc : Stat fs entry.Source = .error .ENOENT) :
    ContentStatus H fs entry = .ok ⟨entry, .StatusMissing, "stored file missing"⟩ :=
  contentStatus_stored_missing H fs entry status hlink hst hsrc

/-- C4 at the scenario with both paths absent, and at a conflict ("links to /other") that
is overridden. -/
theorem C4_witness_both_absent :
    Lstat fsBothAbsent bashrcEntry.Target = .error .ENOENT ∧
    Lstat fsBothAbsent bashrcEntry.Source = .error .ENOENT ∧
    ContentStatus sampleDigest fsBothAbsent bashrcEntry =
      .ok ⟨bashrcEntry, .StatusMissing, "stored file missing"⟩ ∧
    LinkStatus fsWrongLinkNoStore bashrcEntry =
      .ok ⟨bashrcEntry, .StatusConflicts, "links to /other"⟩ ∧
    ContentStatus sampleDigest fsWrongLinkNoStore bashrcEntry =
      .ok ⟨bashrcEntry, .StatusMissing, "stored file missing"⟩ :=
  ⟨rfl, rfl,
   C4_stored_missing_overrides sampleDigest fsBothAbsent bashrcEntry
      ⟨bashrcEntry, .StatusMissing, ""⟩ rfl (Or.inl rfl) rfl,
   rfl,
   C4_stored_missing_overrides sampleDigest fsWrongLinkNoStore bashrcEntry
      ⟨bashrcEntry, .StatusConflicts, "links to /other"⟩ rfl (Or.inr rfl) rfl⟩

/-- C5 fails as stated: the target links to `/other`, not to the stored path, yet with no
stored copy `ContentStatus` returns `StatusMissing`, not `StatusConflicts`. -/
theorem C5_counterexample_no_stored_copy :
    Lstat fsWrongLinkNoStore bashrcEntry.Target = .ok (.symlink ["other"]) ∧
    ["other"] ≠ bashrcEntry.Source ∧
    ContentStatus sampleDigest fsWrongLinkNoStore bashrcEntry =
      .ok ⟨bashrcEntry, .StatusMissing, "stored file missing"⟩ ∧
    (∀ info, ContentStatus sampleDigest fsWrongLinkNoStore bashrcEntry ≠
      .ok ⟨bashrcEntry, .StatusConflicts, info⟩) := by
  refine ⟨by decide, by decide, by decide, ?_⟩
  intro info h
  rw [show ContentStatus sampleDigest fsWrongLinkNoStore bashrcEntry =
    .ok ⟨bashrcEntry, .StatusMissing, "stored file missing"⟩ from by decide] at h
  cases h

/-- C5 as amended: when the target is a symbolic link whose raw value differs from
`entry.Source` and the stored copy exists (`os.Stat` succeeds on it), `ContentStatus`
returns `StatusConflicts` with `Info` "links to <raw value>", for every digest function
and whatever the two files hold. -/
theorem C5_wrong_link_conflict_when_stored (H : List Nat → String) (fs : FS)
    (entry : FileEntry) (raw : Path) (n : Node)
    (htgt : Lstat fs entry.Target = .ok (.symlink raw)) (hraw : raw ≠ entry.Source)
    (hsrc : Stat fs entry.Source = .ok n) :
    ContentStatus H fs entry = .ok ⟨entry, .StatusConflicts, "links to " ++ render raw⟩ := by
  have hl := linkStatus_link fs entry raw htgt
  rw [if_neg hraw] at hl
  exact contentStatus_conflict_kept H fs entry _ n hl rfl hsrc

/-- C5 as amended, where the linked file and the stored copy have the same digest. -/
theorem C5_witness_identical_content :
    fileHash sampleDigest fsWrongLink ["other"] =
      fileHash sampleDigest fsWrongLink bashrcEntry.Source ∧
    ContentStatus sampleDigest fsWrongLink bashrcEntry =
      .ok ⟨bashrcEntry, .StatusConflicts, "links to /other"⟩ :=
  ⟨rfl, C5_wrong_link_conflict_when_stored sampleDigest fsWrongLink bashrcEntry ["other"]
    (.file [101, 120] 420) rfl (by decide) rfl⟩

/-- C6: when the stored copy exists (`os.Stat` succeeds) and `LinkStatus` returns a
`StatusConflicts` entry, `ContentStatus` returns that very entry (same `Status`, `Info`
and `Entry`), for every digest function: no content is compared. -/
theorem C6_conflict_returned_unchanged (H : List Nat → String) (fs : FS) (entry : FileEntry)
    (status : StatusEntry) (n : Node) (hlink : LinkStatus fs entry = .ok status)
    (hst : status.Status = .StatusConflicts) (hsrc : Stat fs entry.Source = .ok n) :
    ContentStatus H fs entry = .ok status ∧ status.Entry = entry :=
  ⟨contentStatus_conflict_kept H fs entry status n hlink hst hsrc,
   linkStatus_entry fs entry status hlink⟩

/-- C6 at a shadow copy: `/home/.bashrc` is a regular file with the bytes of the stored
copy, and the verdict stays `StatusConflicts` with "not a symlink". -/
theorem C6_witness_shadow_copy :
    Open fsShadow bashrcEntry.Target = Open fsShadow bashrcEntry.Source ∧
    ContentStatus sampleDigest fsShadow bashrcEntry =
      .ok ⟨bashrcEntry, .StatusConflicts, "not a symlink"⟩ :=
  ⟨rfl, (C6_conflict_returned_unchanged sampleDigest fsShadow bashrcEntry
    ⟨bashrcEntry, .StatusConflicts, "not a symlink"⟩ (.file [101, 120] 420) rfl rfl rfl).1⟩

/-- C7: `LinkStatus` is decided by the no-follow probe of the target. It returns
`StatusMissing` with empty `Info` exactly when the probe reports not-exist;
`StatusConflicts` with "not a symlink" exactly when the probe finds a node that is not a
symbolic link; `StatusLinked` with empty `Info` exactly when it finds a symbolic link whose
raw value equals `entry.Source`; `StatusConflicts` with "links to <raw value>" when it
finds a link with another raw value, and every other conflict verdict arises that way. A
returned entry is never `StatusDiverged` and always carries the input entry, and two
states with the same probe result give the same answer. -/
theorem C7_linkStatus_characterised (fs : FS) (entry : FileEntry) :
    (LinkStatus fs entry = .ok ⟨entry, .StatusMissing, ""⟩ ↔
      Lstat fs entry.Target = .error .ENOENT) ∧
    (LinkStatus fs entry = .ok ⟨entry, .StatusConflicts, "not a symlink"⟩ ↔
      ∃ n, Lstat fs entry.Target = .ok n ∧ n.IsSymlink = false) ∧
    (LinkStatus fs entry = .ok ⟨entry, .StatusLinked, ""⟩ ↔
      Lstat fs entry.Target = .ok (.symlink entry.Source)) ∧
    (∀ raw, Lstat fs entry.Target = .ok (.symlink raw) → raw ≠ entry.Source →
      LinkStatus fs entry = .ok ⟨entry, .StatusConflicts, "links to " ++ render raw⟩) ∧
    (∀ status, LinkStatus fs entry = .ok status → status.Status = .StatusConflicts →
      status.Info ≠ "not a symlink" →
      ∃ raw, Lstat fs entry.Target = .ok (.symlink raw) ∧ raw ≠ entry.Source ∧
        status.Info = "links to " ++ render raw) ∧
    (∀ status, LinkStatus fs entry = .ok status →
      status.Status ≠ .StatusDiverged ∧ status.Entry = entry) ∧
    (∀ fs', Lstat fs' entry.Target = Lstat fs entry.Target →
      LinkStatus fs' entry = LinkStatus fs entry) := by
  have hlast : ∀ fs', Lstat fs' entry.Target = Lstat fs entry.Target →
      LinkStatus fs' entry = LinkStatus fs entry := by
    intro fs' h
    simp [LinkStatus, Readlink, h]
  rcases hl : Lstat fs entry.Target with err | n
  · by_cases he : err = .ENOENT
    · subst he
      have h := linkStatus_absent fs entry hl
      refine ⟨?_, ?_, ?_, ?_, ?_, ?_, fun fs' h' => hlast fs' (h'.trans hl.symm)⟩ <;>
        simp [h]
    · have h := linkStatus_failed fs entry err hl he
      refine ⟨?_, ?_, ?_, ?_, ?_, ?_, fun fs' h' => hlast fs' (h'.trans hl.symm)⟩ <;>
        simp [h, he]
  · cases n with
    | symlink raw =>
      have h := linkStatus_link fs entry raw hl
      by_cases hr : raw = entry.Source
      · rw [if_pos hr] at h
        refine ⟨?_, ?_, ?_, ?_, ?_, ?_, fun fs' h' => hlast fs' (h'.trans hl.symm)⟩ <;>
          simp [h, hr, Node.IsSymlink]
      · rw [if_neg hr] at h
        refine ⟨?_, ?_, ?_, ?_, ?_, ?_, fun fs' h' => hlast fs' (h'.trans hl.symm)⟩ <;>
          simp [h, hr, Node.IsSymlink, links_to_ne]
    | file c perm =>
      have h := linkStatus_nonlink fs entry _ hl rfl
      refine ⟨?_, ?_, ?_, ?_, ?_, ?_, fun fs' h' => hlast fs' (h'.trans hl.symm)⟩ <;>
        simp [h, Node.IsSymlink]
    | dir =>
      have h := linkStatus_nonlink fs entry _ hl rfl
      refine ⟨?_, ?_, ?_, ?_, ?_, ?_, fun fs' h' => hlast fs' (h'.trans hl.symm)⟩ <;>
        simp [h, Node.IsSymlink]
    | other =>
      have h := linkStatus_nonlink fs entry _ hl rfl
      refine ⟨?_, ?_, ?_, ?_, ?_, ?_, fun fs' h' => hlast fs' (h'.trans hl.symm)⟩ <;>
        simp [h, Node.IsSymlink]

/-- C8: let `target` be a path other than the root at which no directory is stored (it is
absent, a regular file, a symbolic link or another node) and whose every proper ancestor
is absent or a directory, so that the missing ones can be made. Then, for every `source`,
`EnsureSymlink` returns no error, and in the state it leaves the target is a symbolic link
whose raw value is `source` verbatim (so the previous occupant is gone) and every proper
ancestor of the target is a directory. -/
theorem C8_ensureSymlink_links (fs : FS) (target source : Path)
    (hne : target ≠ []) (htgt : fs target ≠ some .dir)
    (hpar : ∀ k, k < target.length → 0 < k →
      fs (target.take k) = none ∨ fs (target.take k) = some .dir) :
    (EnsureSymlink fs target source).1 = none ∧
    Lstat (EnsureSymlink fs target source).2 target = .ok (.symlink source) ∧
    Readlink (EnsureSymlink fs target source).2 target = .ok source ∧
    ∀ k, k < target.length →
      Lstat (EnsureSymlink fs target source).2 (target.take k) = .ok .dir := by
  rcases path_cases target with rfl | ⟨d, c, rfl⟩
  · exact absurd rfl hne
  · have hpar' : ∀ q : Path, q ≠ [] → q <+: d → fs q = none ∨ fs q = some .dir := by
      intro q hq hpre
      have hlen : q.length ≤ d.length := hpre.length_le
      have hq' : q = (d ++ [c]).take q.length :=
        List.prefix_iff_eq_take.1 (hpre.trans (List.prefix_append d [c]))
      have hpos : 0 < q.length := List.length_pos.2 hq
      have := hpar q.length (by simp; omega) hpos
      rw [← hq'] at this
      exact this
    obtain ⟨fs1, h1, h2, h3⟩ := MkdirAll_creates fs d hpar'
    have hnd : fs1 (d ++ [c]) ≠ some .dir := by
      rw [h3 _ (by simp)]
      exact htgt
    rw [ensureSymlink_after_mkdir fs fs1 d c source h1 h2 hnd]
    have hd' : Lstat (fs1.insert (d ++ [c]) (.symlink source)) d = .ok .dir :=
      (Lstat_insert_of_lt fs1 _ d _ (by simp)).trans h2
    have hl : Lstat (fs1.insert (d ++ [c]) (.symlink source)) (d ++ [c]) =
        .ok (.symlink source) := by
      rw [Lstat_snoc_of_dir _ d c hd']
      simp [FS.insert]
    refine ⟨rfl, hl, ?_, ?_⟩
    · simp [Readlink, hl]
    · intro k hk
      have hk' : k ≤ d.length := by
        simp at hk
        omega
      rw [List.take_append_of_le_length hk']
      exact Lstat_take_dir _ d hd' k

/-- C8 at an absent target below three missing directories (`/home/a/b/c/link`, with a
`source` that does not exist), and at a target that is a regular file. -/
theorem C8_witness_nested_and_overwrite :
    ((EnsureSymlink fsBothAbsent ["home", "a", "b", "c", "link"] ["nowhere"]).1 = none ∧
     Lstat (EnsureSymlink fsBothAbsent ["home", "a", "b", "c", "link"] ["nowhere"]).2
        ["home", "a", "b", "c", "link"] = .ok (.symlink ["nowhere"])) ∧
    Lstat fsShadow ["home", ".bashrc"] = .ok (.file [101, 120] 420) ∧
    ((EnsureSymlink fsShadow ["home", ".bashrc"] ["store", ".bashrc"]).1 = none ∧
     Lstat (EnsureSymlink fsShadow ["home", ".bashrc"] ["store", ".bashrc"]).2
        ["home", ".bashrc"] = .ok (.symlink ["store", ".bashrc"])) :=
  ⟨⟨(C8_ensureSymlink_links fsBothAbsent ["home", "a", "b", "c", "link"] ["nowhere"]
        (by decide) (by decide) (by decide)).1,
    (C8_ensureSymlink_links fsBothAbsent ["home", "a", "b", "c", "link"] ["nowhere"]
        (by decide) (by decide) (by decide)).2.1⟩,
   rfl,
   ⟨(C8_ensureSymlink_links fsShadow ["home", ".bashrc"] ["store", ".bashrc"]
        (by decide) (by decide) (by decide)).1,
    (C8_ensureSymlink_links fsShadow ["home", ".bashrc"] ["store", ".bashrc"]
        (by decide) (by decide) (by decide)).2.1⟩⟩

/-- C9: when a directory is at `target`, `EnsureSymlink` returns the error
"target <target> is a directory" for every `source` and leaves the very state it was
given: the directory is still there and no link was made. -/
theorem C9_directory_rejected (fs : FS) (target source : Path)
    (hdir : Lstat fs target = .ok .dir) :
    EnsureSymlink fs target source =
      (some (.new ("target " ++ render target ++ " is a directory")), fs) := by
  unfold EnsureSymlink
  rw [MkdirAll_of_dir fs (Dir target) (Lstat_parent_dir fs target .dir hdir)]
  simp [hdir, Node.IsDir]

/-- C9 at the directory `/home`. -/
theorem C9_witness_home_directory :
    EnsureSymlink fsTargetAbsent ["home"] ["store", ".bashrc"] =
      (some (.new "target /home is a directory"), fsTargetAbsent) :=
  C9_directory_rejected fsTargetAbsent ["home"] ["store", ".bashrc"] rfl

/-- C10: if `EnsureSymlink target source` succeeds, then running it again on the state it
left succeeds too and leaves exactly that state, in which the target is a symbolic link
with raw value `source`. -/
theorem C10_ensureSymlink_idempotent (fs : FS) (target source : Path)
    (hfirst : (EnsureSymlink fs target source).1 = none) :
    EnsureSymlink (EnsureSymlink fs target source).2 target source =
      (none, (EnsureSymlink fs target source).2) ∧
    Lstat (EnsureSymlink fs target source).2 target = .ok (.symlink source) := by
  obtain ⟨fsx, d, c, rfl, hd, hfin⟩ := ensureSymlink_ok fs target source hfirst
  rw [hfin]
  have hd' : Lstat (fsx.insert (d ++ [c]) (.symlink source)) d = .ok .dir :=
    (Lstat_insert_of_lt fsx _ d _ (by simp)).trans hd
  constructor
  · rw [ensureSymlink_after_mkdir _ _ d c source (MkdirAll_of_dir _ d hd') hd'
      (by simp [FS.insert]), insert_insert]
  · rw [Lstat_snoc_of_dir _ d c hd']
    simp [FS.insert]

/-- C10 at a first call that replaces the regular file `/home/.bashrc`. -/
theorem C10_witness_twice :
    (EnsureSymlink fsShadow ["home", ".bashrc"] ["store", ".bashrc"]).1 = none ∧
    EnsureSymlink (EnsureSymlink fsShadow ["home", ".bashrc"] ["store", ".bashrc"]).2
        ["home", ".bashrc"] ["store", ".bashrc"] =
      (none, (EnsureSymlink fsShadow ["home", ".bashrc"] ["store", ".bashrc"]).2) :=
  ⟨by decide,
   (C10_ensureSymlink_idempotent fsShadow ["home", ".bashrc"] ["store", ".bashrc"]
      (by decide)).1⟩

/-- C11, the code at the failing input: `/home/.bashrc` is a readable regular file with
bytes [101, 120]; `CopyFile` with that path as both source and destination returns no
error and leaves the file empty, so the destination does not hold the bytes the source
had before the call. -/
theorem C11_self_copy_truncates :
    Lstat fsImport ["home", ".bashrc"] = .ok (.file [101, 120] 420) ∧
    (CopyFile 18 fsImport ["home", ".bashrc"] ["home", ".bashrc"]).1 = none ∧
    Lstat (CopyFile 18 fsImport ["home", ".bashrc"] ["home", ".bashrc"]).2
      ["home", ".bashrc"] = .ok (.file [] 420) := by
  decide

/-- C12, the code at the failing input: with umask 0, copying `/home/run.sh` (mode 0o755)
onto the existing `/home/old.sh` (mode 0o600) succeeds and leaves the destination with
mode 0o600; and with umask 0o077 a newly created destination gets mode 0o700. In both
cases the permission bits differ from those of the source. -/
theorem C12_destination_mode_differs :
    Lstat fsImport ["home", "run.sh"] = .ok (.file [35, 33] 493) ∧
    Lstat fsImport ["home", "old.sh"] = .ok (.file [7] 384) ∧
    (CopyFile 0 fsImport ["home", "run.sh"] ["home", "old.sh"]).1 = none ∧
    Lstat (CopyFile 0 fsImport ["home", "run.sh"] ["home", "old.sh"]).2 ["home", "old.sh"] =
      .ok (.file [35, 33] 384) ∧
    (Node.file [35, 33] 384).Perm ≠ (Node.file [35, 33] 493).Perm ∧
    Lstat fsImport ["home", "new.sh"] = .error .ENOENT ∧
    (CopyFile 63 fsImport ["home", "run.sh"] ["home", "new.sh"]).1 = none ∧
    Lstat (CopyFile 63 fsImport ["home", "run.sh"] ["home", "new.sh"]).2 ["home", "new.sh"] =
      .ok (.file [35, 33] 448) := by
  decide

/-- C13: when `sourcePath` is a directory or a symbolic link (whatever it points to),
`CopyIntoDots` returns an error, which stands for the empty path with an error, and the
state it leaves is the state it was given: nothing was opened or written. -/
theorem C13_import_rejects_dir_and_link (umask : Nat) (fs : FS) (home sourcePath : Path)
    (n : Node) (hsrc : Lstat fs sourcePath = .ok n)
    (hkind : n.IsDir = true ∨ n.IsSymlink = true) :
    CopyIntoDots umask fs home sourcePath =
      (.error (.new (if n.IsDir = true then "source must be a file, got directory"
        else "source must be a regular file, got symlink")), fs) := by
  unfold CopyIntoDots
  rw [hsrc]
  by_cases hd : n.IsDir = true
  · simp [hd]
  · have hs : n.IsSymlink = true := hkind.resolve_left hd
    simp [hd, hs]

/-- C13 at the directory `/home/backup` and at the symbolic link `/home/link`, whose
target `/home/.bashrc` is a regular file. -/
theorem C13_witness_backup_and_link :
    CopyIntoDots 18 fsImport ["home"] ["home", "backup"] =
      (.error (.new "source must be a file, got directory"), fsImport) ∧
    Stat fsImport ["home", "link"] = .ok (.file [101, 120] 420) ∧
    CopyIntoDots 18 fsImport ["home"] ["home", "link"] =
      (.error (.new "source must be a regular file, got symlink"), fsImport) :=
  ⟨C13_import_rejects_dir_and_link 18 fsImport ["home"] ["home", "backup"] .dir rfl
      (Or.inl rfl),
   rfl,
   C13_import_rejects_dir_and_link 18 fsImport ["home"] ["home", "link"]
      (.symlink ["home", ".bashrc"]) rfl (Or.inr rfl)⟩

/-- C14, the code at the failing input: the managed directory `/home/.dots` exists and
`/home/.dots/.vimrc` is a regular file with bytes [115, 101, 116]. Importing it succeeds
and returns `/home/.dots/.vimrc`, the path of the source itself, and afterwards the file
is empty: the stored file does not hold the bytes of the source, and the source was
changed. -/
theorem C14_import_of_stored_path_truncates :
    Lstat fsImport (DotsDir ["home"]) = .ok .dir ∧
    Lstat fsImport ["home", ".dots", ".vimrc"] = .ok (.file [115, 101, 116] 420) ∧
    (CopyIntoDots 18 fsImport ["home"] ["home", ".dots", ".vimrc"]).1 =
      .ok ["home", ".dots", ".vimrc"] ∧
    Lstat (CopyIntoDots 18 fsImport ["home"] ["home", ".dots", ".vimrc"]).2
      ["home", ".dots", ".vimrc"] = .ok (.file [] 420) := by
  decide

/-- C15: `removeSymlink` returns an error and the state it was given when the target is a
directory or any other node that is not a symbolic link; it returns no error and leaves
nothing at the target when the target is a symbolic link, and returns no error and the
state it was given when the target is absent. In the remove workflow `restoreFile` is run
only on the state a successful `removeSymlink` left, in which nothing is at the target;
with a node other than a symbolic link at the target the workflow stops with an error and
the state unchanged. -/
theorem C15_restore_only_after_link_removed (umask : Nat) (fs : FS) (entry : FileEntry) :
    (∀ n, Lstat fs entry.Target = .ok n → n.IsSymlink = false →
      ∃ err, removeSymlink fs entry.Target = (some err, fs)) ∧
    (∀ raw, Lstat fs entry.Target = .ok (.symlink raw) →
      (removeSymlink fs entry.Target).1 = none ∧
      Lstat (removeSymlink fs entry.Target).2 entry.Target = .error .ENOENT) ∧
    (Lstat fs entry.Target = .error .ENOENT → removeSymlink fs entry.Target = (none, fs)) ∧
    (∀ n, Lstat fs entry.Target = .ok n → n.IsSymlink = false →
      ∃ err, removeCmdSteps umask fs entry = (some err, fs)) ∧
    ((removeSymlink fs entry.Target).1 = none →
      removeCmdSteps umask fs entry = restoreFile umask (removeSymlink fs entry.Target).2 entry ∧
      Lstat (removeSymlink fs entry.Target).2 entry.Target = .error .ENOENT) ∧
    (∀ err, (removeSymlink fs entry.Target).1 = some err →
      removeCmdSteps umask fs entry = (some err, (removeSymlink fs entry.Target).2)) := by
  refine ⟨?_, ?_, ?_, ?_, ?_, ?_⟩
  · intro n h hn
    exact removeSymlink_nonlink fs entry.Target n h hn
  · intro raw h
    have hok : (removeSymlink fs entry.Target).1 = none := by
      rw [removeSymlink_link fs entry.Target raw h]
    exact ⟨hok, removeSymlink_ok_absent fs entry.Target hok⟩
  · exact removeSymlink_absent fs entry.Target
  · intro n h hn
    obtain ⟨err, he⟩ := removeSymlink_nonlink fs entry.Target n h hn
    exact ⟨err, by simp [removeCmdSteps, he]⟩
  · intro hok
    refine ⟨?_, removeSymlink_ok_absent fs entry.Target hok⟩
    rcases hr : removeSymlink fs entry.Target with ⟨e, fs1⟩
    rw [hr] at hok
    simp only at hok
    subst hok
    simp [removeCmdSteps, hr]
  · intro err herr
    rcases hr : removeSymlink fs entry.Target with ⟨e, fs1⟩
    rw [hr] at herr
    simp only at herr
    subst herr
    simp [removeCmdSteps, hr]

/-- C16: if the targets of a manifest are pairwise distinct, they still are after
`UpsertEntry`; the number of entries is unchanged when some entry had the target of the new
entry and grows by one otherwise; and every entry with another target stays at its index
with its value. -/
theorem C16_upsert_keeps_targets_unique (manifest : Manifest) (entry : FileEntry)
    (huniq : (manifest.Files.map FileEntry.Target).Nodup) :
    ((UpsertEntry manifest entry).Files.map FileEntry.Target).Nodup ∧
    (UpsertEntry manifest entry).Files.length =
      (if ∃ e ∈ manifest.Files, e.Target = entry.Target then manifest.Files.length
       else manifest.Files.length + 1) ∧
    ∀ (i : Nat) (e : FileEntry), manifest.Files[i]? = some e → e.Target ≠ entry.Target →
      (UpsertEntry manifest entry).Files[i]? = some e :=
  ⟨upsertIn_nodup entry manifest.Files huniq, upsertIn_length entry manifest.Files,
   fun i e hget hne => upsertIn_get_other entry manifest.Files i e hget hne⟩

/-- C16 at an update of the second of two entries and at the insertion of a third. -/
theorem C16_witness_update_and_insert :
    UpsertEntry sampleManifest ⟨["new", ".vimrc"], ["home", "user", ".vimrc"]⟩ =
      ⟨[⟨["dots", ".bashrc"], ["home", "user", ".bashrc"]⟩,
        ⟨["new", ".vimrc"], ["home", "user", ".vimrc"]⟩]⟩ ∧
    ((UpsertEntry sampleManifest
        ⟨["new", ".vimrc"], ["home", "user", ".vimrc"]⟩).Files.map FileEntry.Target).Nodup ∧
    (UpsertEntry sampleManifest ⟨["dots", ".zshrc"], ["home", "user", ".zshrc"]⟩).Files.length
      = 3 ∧
    ((UpsertEntry sampleManifest
        ⟨["dots", ".zshrc"], ["home", "user", ".zshrc"]⟩).Files.map FileEntry.Target).Nodup :=
  ⟨by decide,
   (C16_upsert_keeps_targets_unique sampleManifest
      ⟨["new", ".vimrc"], ["home", "user", ".vimrc"]⟩ (by decide)).1,
   by decide,
   (C16_upsert_keeps_targets_unique sampleManifest
      ⟨["dots", ".zshrc"], ["home", "user", ".zshrc"]⟩ (by decide)).1⟩

/-- C17: `FindEntry` answers with the first entry whose `Target` equals `target` (every
entry before it has another target), and with not-found exactly when no entry has that
target, so always on an empty manifest; and after `UpsertEntry manifest e`, looking up
`e.Target` finds `e`. -/
theorem C17_find_by_target (manifest : Manifest) (target : Path) (entry : FileEntry) :
    (∀ e, FindEntry manifest target = some e →
      e.Target = target ∧
      ∃ before after, manifest.Files = before ++ e :: after ∧
        ∀ x ∈ before, x.Target ≠ target) ∧
    (FindEntry manifest target = none ↔ ∀ e ∈ manifest.Files, e.Target ≠ target) ∧
    FindEntry ⟨[]⟩ target = none ∧
    FindEntry (UpsertEntry manifest entry) entry.Target = some entry :=
  ⟨fun e h => findIn_first target manifest.Files e h,
   findIn_none_iff target manifest.Files, rfl, findIn_upsertIn entry manifest.Files⟩

/-- C18 fails as stated: `/home/backup/.vimrc` (bytes [48]) and the stored file
`/home/.dots/.vimrc` (bytes [115, 101, 116]) are distinct regular files with the same last
component. Both imports succeed and return `/home/.dots/.vimrc`, but after importing the
first and then the second the stored file is empty: it does not hold the bytes of the
second file. -/
theorem C18_counterexample_second_is_stored_path :
    Lstat fsImport ["home", "backup", ".vimrc"] = .ok (.file [48] 420) ∧
    Lstat fsImport ["home", ".dots", ".vimrc"] = .ok (.file [115, 101, 116] 420) ∧
    Base ["home", "backup", ".vimrc"] = Base ["home", ".dots", ".vimrc"] ∧
    (CopyIntoDots 18 fsImport ["home"] ["home", "backup", ".vimrc"]).1 =
      .ok ["home", ".dots", ".vimrc"] ∧
    (CopyIntoDots 18 (CopyIntoDots 18 fsImport ["home"] ["home", "backup", ".vimrc"]).2
      ["home"] ["home", ".dots", ".vimrc"]).1 = .ok ["home", ".dots", ".vimrc"] ∧
    Lstat (CopyIntoDots 18 (CopyIntoDots 18 fsImport ["home"] ["home", "backup", ".vimrc"]).2
      ["home"] ["home", ".dots", ".vimrc"]).2 ["home", ".dots", ".vimrc"] =
      .ok (.file [] 420) := by
  decide

/-- C18 as amended: let `p` and `q` be regular files with the same last component, neither
of them the stored path `DotsDir(home)/<component>` itself, and let the stored path not be
a symbolic link. If importing `p` and then importing `q` both succeed, both return the
stored path, and afterwards the stored file holds exactly the bytes of `q`. -/
theorem C18_second_import_overwrites (umask : Nat) (fs : FS) (home p q : Path)
    (cp cq : List Nat) (mp mq : Nat)
    (hp : Lstat fs p = .ok (.file cp mp)) (hq : Lstat fs q = .ok (.file cq mq))
    (hbase : Base p = Base q)
    (hps : p ≠ Join (DotsDir home) (Base p)) (hqs : q ≠ Join (DotsDir home) (Base q))
    (hstored : ∀ raw, Lstat fs (Join (DotsDir home) (Base p)) ≠ .ok (.symlink raw))
    (h1 : ∃ d, (CopyIntoDots umask fs home p).1 = .ok d)
    (h2 : ∃ d, (CopyIntoDots umask (CopyIntoDots umask fs home p).2 home q).1 = .ok d) :
    (CopyIntoDots umask fs home p).1 = .ok (Join (DotsDir home) (Base p)) ∧
    (CopyIntoDots umask (CopyIntoDots umask fs home p).2 home q).1 =
      .ok (Join (DotsDir home) (Base p)) ∧
    ∃ mode, Lstat (CopyIntoDots umask (CopyIntoDots umask fs home p).2 home q).2
      (Join (DotsDir home) (Base p)) = .ok (.file cq mode) := by
  obtain ⟨r1, hnd, mode1, hfs1, hl1⟩ := copyIntoDots_distinct umask fs home p cp mp hp hstored
    hps h1
  have hq1 : Lstat (CopyIntoDots umask fs home p).2 q = .ok (.file cq mq) := by
    rw [hfs1]
    exact Lstat_insert_of_ok fs _ q _ _ hq (hbase ▸ hqs) hnd
  have hstored1 : ∀ raw,
      Lstat (CopyIntoDots umask fs home p).2 (Join (DotsDir home) (Base q)) ≠
        .ok (.symlink raw) := by
    intro raw
    rw [← hbase, hl1]
    simp
  obtain ⟨r2, _, mode2, _, hl2⟩ := copyIntoDots_distinct umask _ home q cq mq hq1 hstored1
    hqs h2
  rw [← hbase] at r2 hl2
  exact ⟨r1, r2, mode2, hl2⟩

/-- C18 as amended, at `/home/backup/.vimrc` imported before `/home/work/.vimrc`. -/
theorem C18_witness_backup_then_work :
    (CopyIntoDots 18 fsImport ["home"] ["home", "backup", ".vimrc"]).1 =
      .ok ["home", ".dots", ".vimrc"] ∧
    (CopyIntoDots 18 (CopyIntoDots 18 fsImport ["home"] ["home", "backup", ".vimrc"]).2
      ["home"] ["home", "work", ".vimrc"]).1 = .ok ["home", ".dots", ".vimrc"] ∧
    ∃ mode, Lstat (CopyIntoDots 18
      (CopyIntoDots 18 fsImport ["home"] ["home", "backup", ".vimrc"]).2
      ["home"] ["home", "work", ".vimrc"]).2 ["home", ".dots", ".vimrc"] =
      .ok (.file [49, 50] mode) :=
  C18_second_import_overwrites 18 fsImport ["home"] ["home", "backup", ".vimrc"]
    ["home", "work", ".vimrc"] [48] [49, 50] 420 420 rfl rfl rfl (by decide) (by decide)
    (fun raw h => by
      rw [show Lstat fsImport (Join (DotsDir ["home"]) (Base ["home", "backup", ".vimrc"])) =
        .ok (.file [115, 101, 116] 420) from rfl] at h
      cases h)
    ⟨["home", ".dots", ".vimrc"], by decide⟩ ⟨["home", ".dots", ".vimrc"], by decide⟩

/-- C19: on one filesystem state in which the stored copy, whenever `os.Stat` finds it,
can be hashed, `ContentStatus` returns `StatusDiverged` exactly when nothing exists at
the target and the stored copy exists. It never returns the `Info` "target missing", and
with something at the target a returned verdict is `StatusLinked`, `StatusConflicts`, or
`StatusMissing` with "stored file missing", never `StatusDiverged`. -/
theorem C19_diverged_means_target_absent (H : List Nat → String) (fs : FS)
    (entry : FileEntry)
    (hhash : ∀ n, Stat fs entry.Source = .ok n →
      ∃ digest, fileHash H fs entry.Source = .ok digest) :
    ((∃ st, ContentStatus H fs entry = .ok st ∧ st.Status = .StatusDiverged) ↔
      (Lstat fs entry.Target = .error .ENOENT ∧ ∃ n, Stat fs entry.Source = .ok n)) ∧
    (∀ st, ContentStatus H fs entry = .ok st → st.Info ≠ "target missing") ∧
    (∀ st n, ContentStatus H fs entry = .ok st → Lstat fs entry.Target = .ok n →
      st.Status ≠ .StatusDiverged ∧
      (st.Status = .StatusLinked ∨ st.Status = .StatusConflicts ∨
        (st.Status = .StatusMissing ∧ st.Info = "stored file missing"))) := by
  refine ⟨⟨?_, ?_⟩, ?_, ?_⟩
  · rintro ⟨st, h, hd⟩
    exact contentStatus_diverged H fs entry st h hd
  · rintro ⟨htgt, n, hsrc⟩
    obtain ⟨digest, hdig⟩ := hhash n hsrc
    exact ⟨_, contentStatus_target_absent H fs entry n digest htgt hsrc hdig, rfl⟩
  · intro st h
    exact contentStatus_info_ne H fs entry st h
  · intro st n h hl
    have hp := contentStatus_present H fs entry st n hl h
    refine ⟨?_, hp⟩
    intro hd
    rcases hp with h1 | h1 | ⟨h1, _⟩ <;> rw [h1] at hd <;> cases hd

/-- C19 at the state with the stored copy present and the target absent (the verdict is
`StatusDiverged`), and at a shadow copy (the verdict is not). -/
theorem C19_witness_absent_and_shadow :
    (∃ st, ContentStatus sampleDigest fsTargetAbsent bashrcEntry = .ok st ∧
      st.Status = .StatusDiverged) ∧
    Lstat fsTargetAbsent bashrcEntry.Target = .error .ENOENT ∧
    (∀ st, ContentStatus sampleDigest fsShadow bashrcEntry = .ok st →
      st.Status ≠ .StatusDiverged) :=
  ⟨(C19_diverged_means_target_absent sampleDigest fsTargetAbsent bashrcEntry
      (fun _ _ => ⟨_, rfl⟩)).1.2 ⟨rfl, _, rfl⟩,
   rfl,
   fun st h => ((C19_diverged_means_target_absent sampleDigest fsShadow bashrcEntry
      (fun _ _ => ⟨_, rfl⟩)).2.2 st (.file [101, 120] 420) h rfl).1⟩

/-- C20: if `EnsureSymlink target source` returns no error, then in the state it leaves
both `LinkStatus` and `ContentStatus` of the entry with that source and target return
`StatusLinked` with empty `Info`, for every digest function and whatever is or is not
stored at `source`. -/
theorem C20_enforcement_agrees_with_reporting (H : List Nat → String) (fs : FS)
    (target source : Path) (hok : (EnsureSymlink fs target source).1 = none) :
    LinkStatus (EnsureSymlink fs target source).2 ⟨source, target⟩ =
      .ok ⟨⟨source, target⟩, .StatusLinked, ""⟩ ∧
    ContentStatus H (EnsureSymlink fs target source).2 ⟨source, target⟩ =
      .ok ⟨⟨source, target⟩, .StatusLinked, ""⟩ := by
  have hl := ensureSymlink_ok_lstat fs target source hok
  constructor
  · have := linkStatus_link (EnsureSymlink fs target source).2 ⟨source, target⟩ source hl
    simpa using this
  · exact contentStatus_of_linked H _ ⟨source, target⟩ hl

/-- C20 at a link made to a source that does not exist. -/
theorem C20_witness_missing_source :
    Stat (EnsureSymlink fsBothAbsent ["home", ".bashrc"] ["store", ".bashrc"]).2
      ["store", ".bashrc"] = .error .ENOENT ∧
    ContentStatus sampleDigest
      (EnsureSymlink fsBothAbsent ["home", ".bashrc"] ["store", ".bashrc"]).2 bashrcEntry =
      .ok ⟨bashrcEntry, .StatusLinked, ""⟩ :=
  ⟨by decide,
   (C20_enforcement_agrees_with_reporting sampleDigest fsBothAbsent ["home", ".bashrc"]
      ["store", ".bashrc"] (by decide)).2⟩

end Dots
